import Mathlib

/-!
Verification development for the "Disciplined Life" push-notification
scheduler (scripts/push-cron.mjs and its earlier iterations) and the pillar
auto-completion routine (src/lib/recomputePillar.ts).

Shallow embedding conventions:
* JS numbers that hold whole minutes/dates are modelled as `Int`
  (JS `%` is the truncated remainder, modelled by `Int.tmod`).
* Database tables are lists of row structures; a query `.eq(...)` is a
  `List.filter`, `.limit(1)` / first row is `List.find?`, an insert is an
  append; `maybeSingle` / `single` multiplicity errors are modelled
  explicitly.
* The Web-Push transport is a parameter `transport : Payload → Option String`
  (`none` = delivery accepted, `some msg` = the library threw with message
  `msg`).
* Calendar dates are abstract integer day indices; luxon's
  `now.minus({days: 1}).toISODate()` becomes `d - 1`, and the noon-anchored
  local-to-UTC date conversion used by `areAllPillarsCompletedToday` is an
  abstract per-invocation value `utcDate`.
-/

namespace Disciplined

/-! ## JS minute arithmetic (scripts/push-cron.mjs) -/

/-- JS `%` on integers: truncated remainder (sign follows the dividend). -/
def jsMod (a b : Int) : Int := Int.tmod a b

/-- Source: `function mod1440(n) { return ((n % 1440) + 1440) % 1440; }` -/
def mod1440 (n : Int) : Int := jsMod (jsMod n 1440 + 1440) 1440

/-- Decimal-digit parser over characters (structural, so that concrete
evaluations reduce in the kernel). -/
def parseNatAux : List Char → Nat → Option Nat
  | [], acc => some acc
  | c :: cs, acc =>
    if c.isDigit then parseNatAux cs (acc * 10 + (c.toNat - '0'.toNat))
    else none

/-- JS `Number(s)` on the decimal-literal strings that occur in the data
(the `"HH"` / `"MM"` pieces of a time string); `Number("") = 0`, and the
`parts[i] || 0` default also yields `0`.  NaN and fractional inputs are
outside the model (kept total at `0`). -/
def jsNumber (s : String) : Int :=
  match parseNatAux s.data 0 with
  | some n => Int.ofNat n
  | none => 0

/-- JS `String.prototype.split` with a one-character separator (structural). -/
def splitCharAux (sep : Char) : List Char → List Char → List String
  | [], acc => [⟨acc.reverse⟩]
  | c :: cs, acc =>
    if c == sep then (⟨acc.reverse⟩ : String) :: splitCharAux sep cs []
    else splitCharAux sep cs (c :: acc)

def splitChar (s : String) (sep : Char) : List String :=
  splitCharAux sep s.data []

/-- Source `timeToMinutes` from push-cron: accepts `"HH:MM"` or `"HH:MM:SS"`.
`const parts = String(timeStr).split(":"); hh = Number(parts[0] || 0);
mm = Number(parts[1] || 0); return mod1440(hh * 60 + mm)`. -/
def timeToMinutes (timeStr : String) : Int :=
  let parts := splitChar timeStr ':'
  let hh := jsNumber ((parts.get? 0).getD "")
  let mm := jsNumber ((parts.get? 1).getD "")
  mod1440 (hh * 60 + mm)

/-- Latest iteration's eligibility predicate:
`const diff = mod1440(localMin - targetMin); return diff >= 0 && diff < windowSize;` -/
def inLastWindow (localMin targetMin windowSize : Int) : Bool :=
  let diff := mod1440 (localMin - targetMin)
  decide (0 ≤ diff) && decide (diff < windowSize)

/-- Earlier (kind-keyed) iteration's eligibility predicate:
```
const end = mod1440(nowMin); const start = mod1440(nowMin - (WINDOW - 1));
const t = mod1440(targetMin);
if (start <= end) return t >= start && t <= end;
return t >= start || t <= end;
``` -/
def inLastNMinutesWindow (targetMin nowMin window : Int) : Bool :=
  let e := mod1440 nowMin
  let s := mod1440 (nowMin - (window - 1))
  let t := mod1440 targetMin
  if s ≤ e then decide (s ≤ t) && decide (t ≤ e)
  else decide (s ≤ t) || decide (t ≤ e)

/-! ## Data model shared by the scheduler iterations -/

/-- A `push_send_log` row: `{ user_id, kind, local_date, local_min }`. -/
structure LogEntry where
  userId : Nat
  kind : String
  localDate : Int
  localMin : Int
deriving DecidableEq

/-- A `push_subscriptions` row: `{ user_id, endpoint, p256dh, auth }`. -/
structure SubRow where
  userId : Nat
  endpoint : String
  p256dh : String
  auth : String
deriving DecidableEq

/-- Push payload `{ title, body, data: { url } }`. -/
structure Payload where
  title : String
  body : String
  url : String
deriving DecidableEq

/-- Result of `sendPush`: `{ok:true}`, `{ok:false, reason:"no_subscription"}`,
or `{ok:false, reason:"send_failed", message}`. -/
inductive SendOutcome where
  | ok
  | noSubscription
  | sendFailed (message : String)
deriving DecidableEq

/-- A push the scheduler actually delivered (transport accepted), tagged with
the trigger kind and the send-log key date it was deduplicated against. -/
structure SentPush where
  kind : String
  localDate : Int
  payload : Payload
deriving DecidableEq

/-- Query `alreadySent(userId, kind, localDate)`: the `push_send_log` select with
three `.eq` filters and `limit(1)` — a row for the triple exists. -/
def alreadySent (log : List LogEntry) (userId : Nat) (kind : String)
    (localDate : Int) : Bool :=
  log.any fun e => e.userId == userId && e.kind == kind && e.localDate == localDate

/-- Write `markSent(userId, kind, localDate, localMin)`: insert of one log row. -/
def markSent (log : List LogEntry) (userId : Nat) (kind : String)
    (localDate localMin : Int) : List LogEntry :=
  log ++ [⟨userId, kind, localDate, localMin⟩]

/-- Query `fetchUserSubscription(userId)`: `.eq("user_id", userId).limit(1)` —
the first stored subscription row for the user, if any. -/
def fetchUserSubscription (subs : List SubRow) (userId : Nat) : Option SubRow :=
  subs.find? fun r => r.userId == userId

/-- Cleanup `deleteUserSubscriptions(userId)`: delete-by-filter of every
`push_subscriptions` row of the user. -/
def deleteUserSubscriptions (subs : List SubRow) (userId : Nat) : List SubRow :=
  subs.filter fun r => !(r.userId == userId)

/-- JS `String.prototype.includes`: `pat` occurs as a contiguous substring. -/
def strIncludes (s pat : String) : Bool :=
  (List.range (s.data.length + 1)).any fun i =>
    List.isPrefixOf pat.data (s.data.drop i)

/-- The `sendPush` of the final iteration (scripts/push-cron.mjs): fetch the
subscription (first row), report `no_subscription` if absent, otherwise call
the transport; a thrown transport error is caught and reported as
`send_failed` — this iteration never deletes subscriptions. -/
def sendPushMain (subs : List SubRow) (transport : Payload → Option String)
    (userId : Nat) (payload : Payload) : SendOutcome :=
  match fetchUserSubscription subs userId with
  | none => .noSubscription
  | some _ =>
    match transport payload with
    | none => .ok
    | some msg => .sendFailed msg

/-- The `sendPush` of the kind-keyed iteration (the one with
`deleteUserSubscriptions`): same as `sendPushMain`, except that a caught
transport error whose message contains `"410"` or `"404"` first deletes all
of the user's subscription rows.  Returns the outcome together with the
resulting `push_subscriptions` table. -/
def sendPushV3 (subs : List SubRow) (transport : Payload → Option String)
    (userId : Nat) (payload : Payload) : SendOutcome × List SubRow :=
  match fetchUserSubscription subs userId with
  | none => (.noSubscription, subs)
  | some _ =>
    match transport payload with
    | none => (.ok, subs)
    | some msg =>
      if strIncludes msg "410" || strIncludes msg "404" then
        (.sendFailed msg, deleteUserSubscriptions subs userId)
      else
        (.sendFailed msg, subs)

/-! ## areAllPillarsCompletedToday -/

/-- A `daily_entries` row (`id`, `user_id`, `entry_date`). -/
structure EntryRow where
  id : Nat
  userId : Nat
  entryDate : Int
deriving DecidableEq

/-- A `daily_pillars` row as the scheduler reads it (`entry_id`, `pillar`,
`completed`). -/
structure DPillarRow where
  entryId : Nat
  pillar : String
  completed : Bool
deriving DecidableEq

/-- The completion store read by the scheduler. -/
structure DailyDb where
  entries : List EntryRow
  pillars : List DPillarRow
deriving DecidableEq

/-- Supabase `maybeSingle`: `none` for zero rows, the row for one, an error
for more than one. -/
def maybeSingle {α : Type} (xs : List α) : Except String (Option α) :=
  match xs with
  | [] => .ok none
  | [x] => .ok (some x)
  | _ => .error "JSON object requested, multiple (or no) rows returned"

instance instDecEqExceptStringBool : DecidableEq (Except String Bool) := fun a b =>
  match a, b with
  | .error x, .error y =>
    if h : x = y then .isTrue (by rw [h])
    else .isFalse (by intro hc; cases hc; exact h rfl)
  | .error _, .ok _ => .isFalse (by intro hc; cases hc)
  | .ok _, .error _ => .isFalse (by intro hc; cases hc)
  | .ok x, .ok y =>
    if h : x = y then .isTrue (by rw [h])
    else .isFalse (by intro hc; cases hc; exact h rfl)

/-- Source: `const needed = new Set(["train", "eat", "word", "freedom"])`. -/
def pillarNames : List String := ["train", "eat", "word", "freedom"]

/-- Check `areAllPillarsCompletedToday(userId, localDateISO, tz)`: look up the
`daily_entries` row for the (noon-anchored) UTC date key — the timezone
conversion itself is external, so the already-converted `utcDate` is taken as
an argument — then delete from the needed-pillar set the name of every
`daily_pillars` row of that entry with `completed === true`, and return
whether the set is empty.  A missing day record counts as incomplete. -/
def areAllPillarsCompletedToday (db : DailyDb) (userId : Nat) (utcDate : Int) :
    Except String Bool :=
  match maybeSingle (db.entries.filter fun e => e.userId == userId && e.entryDate == utcDate) with
  | .error msg => .error msg
  | .ok none => .ok false
  | .ok (some entry) =>
    let rows := db.pillars.filter fun r => r.entryId == entry.id
    let needed := rows.foldl
      (fun acc r => if r.completed then acc.erase r.pillar else acc) pillarNames
    .ok (needed.length == 0)

/-! ## The final scheduler iteration (scripts/push-cron.mjs `main`) -/

/-- The per-user `fasting_settings` row joined by `fetchUsersForPush`:
`eating_start`, `eating_hours`, `notify_window_start`, `notify_window_end`.
`eating_hours` is `none` when the column is null (`Number(x || 0)`). -/
structure FastingRow where
  eating_start : String
  eating_hours : Option Int
  notify_window_start : Bool
  notify_window_end : Bool
deriving DecidableEq

/-- A `user_settings` row as read by the final iteration, with its joined
fasting row.  `daily_reminder_time_min = none` models a null / non-finite
value (the `Number.isFinite` guard). -/
structure UserRow where
  userId : Nat
  push_enabled : Bool
  push_fasting_windows : Bool
  push_daily_reminder : Bool
  daily_reminder_time_min : Option Int
  fasting : Option FastingRow

/-- One scheduler invocation's per-user environment: the user's local
calendar date and minute-of-day (luxon, external), a snapshot of the
`push_subscriptions` table, the transport behaviour, the completion store,
and the UTC date key the local date maps to. -/
structure CronEnv where
  localDate : Int
  localMin : Int
  subs : List SubRow
  transport : Payload → Option String
  dailyDb : DailyDb
  utcDate : Int

/-- Observable result of evaluating one user in one invocation: the log
afterwards, the pushes delivered, the `sendPush` calls made, and the error a
data-access step threw (aborting the rest of this user's evaluation), if
any.  State already committed before a throw is kept, matching a crashed
batch whose earlier DB writes persist. -/
structure RunOut where
  log : List LogEntry
  sent : List SentPush
  att : List SentPush
  err : Option String
deriving DecidableEq

def payloadWindowStart : Payload :=
  ⟨"Eating window is open", "You’re in your eating window now.", "/today"⟩

def payloadWindowEnd : Payload :=
  ⟨"Fasting window started", "Eating window closed. You’re fasting now.", "/today"⟩

def payloadEndingSoon : Payload :=
  ⟨"Eating window ends soon", "30 minutes left in your eating window.", "/today"⟩

def payloadReminder : Payload :=
  ⟨"Finish strong today", "You still have pillars to complete.", "/today"⟩

/-- The shared trigger pattern of every fasting-window branch:
`if (!(await alreadySent(uid, kind, keyDate))) { const res = await sendPush(...);
if (res.ok) { await markSent(uid, kind, keyDate, localMin); sentCount++; } }`.
Returns the log afterwards, the pushes delivered, and the `sendPush` calls
made.  The final iteration always keys by the current local date; the
exact-minute iteration passes its `windowKeyDate`. -/
def tryFireAt (env : CronEnv) (userId : Nat) (kind : String) (payload : Payload)
    (keyDate : Int) (log : List LogEntry) :
    List LogEntry × List SentPush × List SentPush :=
  if alreadySent log userId kind keyDate then (log, [], [])
  else
    match sendPushMain env.subs env.transport userId payload with
    | .ok =>
      (markSent log userId kind keyDate env.localMin,
        [⟨kind, keyDate, payload⟩], [⟨kind, keyDate, payload⟩])
    | _ => (log, [], [⟨kind, keyDate, payload⟩])

/-- A guarded trigger: run `tryFireAt` when the eligibility condition holds,
otherwise do nothing. -/
def gfire (env : CronEnv) (userId : Nat) (kind : String) (payload : Payload)
    (keyDate : Int) (log : List LogEntry) (due : Bool) :
    List LogEntry × List SentPush × List SentPush :=
  if due then tryFireAt env userId kind payload keyDate log else (log, [], [])

/-- Two guarded triggers in sequence (the `window_start` then `window_end`
blocks), threading the log and concatenating the observations. -/
def fire2 (env : CronEnv) (userId : Nat) (k1 k2 : String) (p1 p2 : Payload)
    (keyDate : Int) (c1 c2 : Bool) (log : List LogEntry) :
    List LogEntry × List SentPush × List SentPush :=
  let r1 := gfire env userId k1 p1 keyDate log c1
  let r2 := gfire env userId k2 p2 keyDate r1.1 c2
  (r2.1, r1.2.1 ++ r2.2.1, r1.2.2 ++ r2.2.2)

/-- Three guarded triggers in sequence (the exact-minute iteration's
`window_start` / `window_ending_soon` / `window_end` blocks). -/
def fire3 (env : CronEnv) (userId : Nat) (k1 k2 k3 : String) (p1 p2 p3 : Payload)
    (keyDate : Int) (c1 c2 c3 : Bool) (log : List LogEntry) :
    List LogEntry × List SentPush × List SentPush :=
  let r1 := gfire env userId k1 p1 keyDate log c1
  let r2 := gfire env userId k2 p2 keyDate r1.1 c2
  let r3 := gfire env userId k3 p3 keyDate r2.1 c3
  (r3.1, r1.2.1 ++ r2.2.1 ++ r3.2.1, r1.2.2 ++ r2.2.2 ++ r3.2.2)

/-- Fasting-window block of the final iteration: requires a fasting row and
`push_fasting_windows`; computes `startMin = timeToMinutes(eating_start)`,
`endMin = mod1440(startMin + hours*60)`, and fires the `window_start` /
`window_end` triggers through the 5-minute trailing window, each gated by
its own notify flag, both keyed by the current local date. -/
def runFasting (env : CronEnv) (u : UserRow) (log : List LogEntry) :
    List LogEntry × List SentPush × List SentPush :=
  match u.fasting with
  | none => (log, [], [])
  | some fs =>
    if u.push_fasting_windows then
      let startMin := timeToMinutes fs.eating_start
      let endMin := mod1440 (startMin + (fs.eating_hours.getD 0) * 60)
      fire2 env u.userId "window_start" "window_end" payloadWindowStart
        payloadWindowEnd env.localDate
        (fs.notify_window_start && inLastWindow env.localMin startMin 5)
        (fs.notify_window_end && inLastWindow env.localMin endMin 5) log
    else (log, [], [])

/-- Daily-reminder branch shared by the iterations (`due` is the caller's
eligibility test): if due and not yet logged, compute
`areAllPillarsCompletedToday`; when all pillars are complete, write the
send-log row *without* sending; otherwise send and log only on `res.ok`.
A throw from the completion check aborts with its message. -/
def runReminderStep (env : CronEnv) (userId : Nat) (due : Bool)
    (log : List LogEntry) :
    List LogEntry × List SentPush × List SentPush × Option String :=
  if due then
    if alreadySent log userId "daily_reminder" env.localDate then (log, [], [], none)
    else
      match areAllPillarsCompletedToday env.dailyDb userId env.utcDate with
      | .error msg => (log, [], [], some msg)
      | .ok true =>
        (markSent log userId "daily_reminder" env.localDate env.localMin, [], [], none)
      | .ok false =>
        match sendPushMain env.subs env.transport userId payloadReminder with
        | .ok =>
          (markSent log userId "daily_reminder" env.localDate env.localMin,
            [⟨"daily_reminder", env.localDate, payloadReminder⟩],
            [⟨"daily_reminder", env.localDate, payloadReminder⟩], none)
        | _ => (log, [], [⟨"daily_reminder", env.localDate, payloadReminder⟩], none)
  else (log, [], [], none)

/-- Daily-reminder eligibility of the final iteration:
`u.push_daily_reminder && Number.isFinite(u.daily_reminder_time_min) &&
inLastWindow(localMin, reminderMin, 5)`. -/
def dueReminder (env : CronEnv) (u : UserRow) : Bool :=
  u.push_daily_reminder &&
    (match u.daily_reminder_time_min with
     | some r => inLastWindow env.localMin r 5
     | none => false)

/-- One user's evaluation inside `main` of the final iteration
(scripts/push-cron.mjs): skip unless `push_enabled`; run the fasting-window
block, then the daily reminder. -/
def runUser (env : CronEnv) (u : UserRow) (log : List LogEntry) : RunOut :=
  if !u.push_enabled then ⟨log, [], [], none⟩
  else
    let resF := runFasting env u log
    let resR := runReminderStep env u.userId (dueReminder env u) resF.1
    ⟨resR.1, resF.2.1 ++ resR.2.1, resF.2.2 ++ resR.2.2.1, resR.2.2.2⟩

/-- Sequential scheduler invocations for one user under the same settings:
each invocation starts from the log the previous one left behind (a thrown
invocation keeps its committed writes, as a crashed batch would). -/
def runSeq (u : UserRow) : List CronEnv → List LogEntry →
    List LogEntry × List SentPush × List SentPush
  | [], log => (log, [], [])
  | env :: es, log =>
    let out := runUser env u log
    let rest := runSeq u es out.log
    (rest.1, out.sent ++ rest.2.1, out.att ++ rest.2.2)

/-- Number of pushes of a given trigger kind in a list. -/
def countKind (k : String) (sent : List SentPush) : Nat :=
  (sent.filter fun s => s.kind == k).length

/-! ## The exact-minute scheduler iteration (windowKeyDate variant) -/

/-- A `user_settings` row as read by the exact-minute iteration, which keeps
the eating window directly as minute fields (`eating_start_min`,
`eating_end_min`); `none` models null / non-finite values. -/
structure UserRowV1 where
  userId : Nat
  push_enabled : Bool
  push_fasting_windows : Bool
  eating_start_min : Option Int
  eating_end_min : Option Int
  push_daily_reminder : Bool
  daily_reminder_time_min : Option Int

/-- One user's evaluation in the exact-minute iteration: triggers fire on
`localMin === target`.  When the eating window crosses midnight
(`endMin < startMin`) and the trigger minute lies before `endMin`, the log
key date is the previous local day
(`now.minus({days:1}).toISODate()`, i.e. `localDate - 1`); the three fasting
triggers are `window_start` at `startMin`, `window_ending_soon` at
`mod1440(endMin - 30)`, and `window_end` at `endMin`. -/
def runUserV1 (env : CronEnv) (u : UserRowV1) (log : List LogEntry) : RunOut :=
  if !u.push_enabled then ⟨log, [], [], none⟩
  else
    let resF :=
      if u.push_fasting_windows then
        match u.eating_start_min, u.eating_end_min with
        | some startMin, some endMin =>
          let windowKeyDate :=
            if endMin < startMin && env.localMin < endMin then env.localDate - 1
            else env.localDate
          let warnMin := mod1440 (endMin - 30)
          fire3 env u.userId "window_start" "window_ending_soon" "window_end"
            payloadWindowStart payloadEndingSoon payloadWindowEnd windowKeyDate
            (env.localMin == startMin) (env.localMin == warnMin)
            (env.localMin == endMin) log
        | _, _ => (log, [], [])
      else (log, [], [])
    let dueRem := u.push_daily_reminder &&
      (match u.daily_reminder_time_min with
       | some r => env.localMin == r
       | none => false)
    let resR := runReminderStep env u.userId dueRem resF.1
    ⟨resR.1, resF.2.1 ++ resR.2.1, resF.2.2 ++ resR.2.2.1, resR.2.2.2⟩

/-! ## Pillar auto-completion (src/lib/recomputePillar.ts) -/

/-- A full `daily_pillars` row (`entry_id`, `pillar`, `completed`,
`completed_at`, `source`). -/
structure RPillarRow where
  entryId : Nat
  pillar : String
  completed : Bool
  completedAt : Option String
  source : Option String
deriving DecidableEq

/-- A `meals` row (`id`, `user_id`, `meal_date`). -/
structure MealRow where
  id : Nat
  userId : Nat
  mealDate : Int
deriving DecidableEq

/-- A `meal_items` row (`id`, `meal_id`). -/
structure MealItemRow where
  id : Nat
  mealId : Nat
deriving DecidableEq

/-- The tables touched by `recomputePillar`. -/
structure RDb where
  dailyEntries : List EntryRow
  dailyPillars : List RPillarRow
  meals : List MealRow
  mealItems : List MealItemRow
deriving DecidableEq

/-- Step 4 of `recomputePillar` for the `eat` pillar: collect the ids of
today's meals; if there is at least one, `completed` should hold exactly when
at least one `meal_items` row references one of them (`limit(1)` only bounds
the returned rows, not the emptiness test). -/
def eatShouldComplete (db : RDb) (userId : Nat) (entryDate : Int) : Bool :=
  let mealIds :=
    (db.meals.filter fun mrow => mrow.userId == userId && mrow.mealDate == entryDate).map
      fun mrow => mrow.id
  if mealIds.length > 0 then
    (db.mealItems.filter fun it => mealIds.contains it.mealId).length > 0
  else false

/-- Function `recomputePillar(pillar)` (src/lib/recomputePillar.ts): only the `eat`
pillar has a rule; ensure today's `daily_entries` row exists (upsert on
`(user_id, entry_date)`, `freshEntryId` is the id a fresh insert would get),
seed the `daily_pillars` row without overwriting (`ignoreDuplicates`), and
then: a `source = "manual"` row is never touched; otherwise the `eat` flag is
recomputed and, only when it differs from the stored value, the row is
updated with `completed_at = now` / `source = "auto"` when newly complete and
`completed_at = null` / `source = null` when newly incomplete.  The returned
boolean reports whether a change was made; every failure path (here: the
`.single()` multiplicity error) returns `false`.  The authenticated user and
today's UTC date string are the `userId` / `entryDate` arguments. -/
def recomputePillar (pillar : String) (userId : Nat) (entryDate : Int)
    (freshEntryId : Nat) (nowIso : String) (db : RDb) : RDb × Bool :=
  if !(pillar == "eat") then (db, false)
  else
    let step1 : RDb × Nat :=
      match db.dailyEntries.find? (fun e => e.userId == userId && e.entryDate == entryDate) with
      | some e => (db, e.id)
      | none =>
        ({ db with dailyEntries := db.dailyEntries ++ [⟨freshEntryId, userId, entryDate⟩] },
          freshEntryId)
    let db1 := step1.1
    let entryId := step1.2
    let db2 :=
      if db1.dailyPillars.any (fun r => r.entryId == entryId && r.pillar == pillar) then db1
      else { db1 with dailyPillars := db1.dailyPillars ++ [(⟨entryId, pillar, false, none, none⟩ : RPillarRow)] }
    match db2.dailyPillars.filter (fun r => r.entryId == entryId && r.pillar == pillar) with
    | [cur] =>
      if cur.source == some "manual" then (db2, false)
      else
        let shouldComplete := eatShouldComplete db2 userId entryDate
        if cur.completed == shouldComplete then (db2, false)
        else
          let db3 := { db2 with dailyPillars := db2.dailyPillars.map fun r =>
            if r.entryId == entryId && r.pillar == pillar then
              { r with completed := shouldComplete,
                       completedAt := if shouldComplete then some nowIso else none,
                       source := if shouldComplete then some "auto" else none }
            else r }
          (db3, true)
    | _ => (db2, false)

/-- Repeated calls of `recomputePillar` with the same arguments, threading
the store. -/
def recompIter (pillar : String) (userId : Nat) (entryDate : Int)
    (freshEntryId : Nat) (nowIso : String) : Nat → RDb → RDb
  | 0, db => db
  | n + 1, db =>
    recompIter pillar userId entryDate freshEntryId nowIso n
      (recomputePillar pillar userId entryDate freshEntryId nowIso db).1

/-! ## Concrete fixtures used by witnesses and counterexamples -/

/-- A user with only the daily reminder enabled, at 10:00. -/
def w1User : UserRow := ⟨1, true, false, true, some 600, none⟩

/-- An invocation at local minute 600 on local date 5, with a stored
subscription, a transport that accepts every payload, and an empty completion
store (so the reminder actually sends). -/
def w1Env : CronEnv := ⟨5, 600, [⟨1, "ep", "pk", "ak"⟩], (fun _ => none), ⟨[], []⟩, 5⟩

/-- A user with only the daily reminder enabled, at local midnight. -/
def w2User : UserRow := ⟨1, true, false, true, some 0, none⟩

/-- An invocation at local minute 0 on local date 0 for a user with **no**
stored subscription, on a day whose four pillars are all complete. -/
def w2Env : CronEnv :=
  ⟨0, 0, [], (fun _ => none),
    ⟨[⟨7, 1, 0⟩],
      [⟨7, "train", true⟩, ⟨7, "eat", true⟩, ⟨7, "word", true⟩, ⟨7, "freedom", true⟩]⟩, 0⟩

/-- An invocation at local minute 600 on local date 5 with no stored
subscription and an empty completion store. -/
def w3Env : CronEnv := ⟨5, 600, [], (fun _ => none), ⟨[], []⟩, 5⟩

/-- A recompute store whose `eat` row was completed manually. -/
def w5Db : RDb :=
  ⟨[⟨3, 1, 10⟩], [⟨3, "eat", true, some "t0", some "manual"⟩], [], []⟩

/-- A recompute store whose `eat` row was auto-completed but has no meals
today (so the recompute flips it back). -/
def w6Db : RDb :=
  ⟨[⟨3, 1, 10⟩], [⟨3, "eat", true, some "t0", some "auto"⟩], [], []⟩

/-- An exact-minute-iteration user with a midnight-crossing eating window:
`eating_start_min = 1320` (22:00), `eating_end_min = 480` (08:00). -/
def w7User : UserRowV1 := ⟨1, true, true, some 1320, some 480, false, none⟩

/-- Day-D invocation at 07:30 local (the `window_ending_soon` minute of the
wrapped window), with a subscription and an accepting transport. -/
def w7Env1 : CronEnv := ⟨100, 450, [⟨1, "ep", "pk", "ak"⟩], (fun _ => none), ⟨[], []⟩, 0⟩

/-- Same-day invocation at 22:00 local (the next window's start minute). -/
def w7Env2 : CronEnv := ⟨100, 1320, [⟨1, "ep", "pk", "ak"⟩], (fun _ => none), ⟨[], []⟩, 0⟩

end Disciplined

namespace Disciplined

theorem mod1440_eq_emod (n : Int) : mod1440 n = n % 1440 := by
  unfold mod1440 jsMod
  rcases le_or_lt 0 n with hn | hn
  · rw [Int.tmod_eq_emod hn (by norm_num)]
    have h0 : 0 ≤ n % 1440 + 1440 := by
      have := Int.emod_nonneg n (show (1440 : Int) ≠ 0 by norm_num)
      omega
    rw [Int.tmod_eq_emod h0 (by norm_num)]
    omega
  · have hm : 0 ≤ -n := by omega
    have h1 : Int.tmod n 1440 = -(Int.tmod (-n) 1440) := by
      rw [Int.tmod_def, Int.tmod_def, Int.neg_tdiv]; ring
    rw [h1, Int.tmod_eq_emod hm (by norm_num)]
    have h2 : 0 ≤ -((-n) % 1440) + 1440 := by
      have := Int.emod_lt_of_pos (-n) (show (0 : Int) < 1440 by norm_num)
      omega
    rw [Int.tmod_eq_emod h2 (by norm_num)]
    have h3 := Int.emod_nonneg (-n) (show (1440 : Int) ≠ 0 by norm_num)
    have h4 := Int.emod_lt_of_pos (-n) (show (0 : Int) < 1440 by norm_num)
    omega

theorem mod1440_nonneg (n : Int) : 0 ≤ mod1440 n := by
  rw [mod1440_eq_emod]
  exact Int.emod_nonneg n (by norm_num)

theorem mod1440_lt (n : Int) : mod1440 n < 1440 := by
  rw [mod1440_eq_emod]
  exact Int.emod_lt_of_pos n (by norm_num)

/-! ### Send-log and counting helper lemmas -/

theorem alreadySent_append (l1 l2 : List LogEntry) (u : Nat) (k : String) (d : Int) :
    alreadySent (l1 ++ l2) u k d = (alreadySent l1 u k d || alreadySent l2 u k d) := by
  simp [alreadySent, List.any_append]

theorem alreadySent_mono {l : List LogEntry} (l2 : List LogEntry) {u : Nat}
    {k : String} {d : Int} (h : alreadySent l u k d = true) :
    alreadySent (l ++ l2) u k d = true := by
  rw [alreadySent_append, h, Bool.true_or]

theorem alreadySent_markSent_self (l : List LogEntry) (u : Nat) (k : String)
    (d m : Int) : alreadySent (markSent l u k d m) u k d = true := by
  unfold markSent
  rw [alreadySent_append]
  simp [alreadySent]

theorem alreadySent_append_irrelevant (l Δ : List LogEntry) (u : Nat) (k : String)
    (d : Int) (h : ∀ e ∈ Δ, e.kind ≠ k ∨ e.localDate ≠ d) :
    alreadySent (l ++ Δ) u k d = alreadySent l u k d := by
  rw [alreadySent_append]
  have : alreadySent Δ u k d = false := by
    simp only [alreadySent, List.any_eq_false]
    intro e he
    rcases h e he with hk | hd
    · simp [hk]
    · simp [hd]
  rw [this, Bool.or_false]

theorem countKind_append (k : String) (a b : List SentPush) :
    countKind k (a ++ b) = countKind k a + countKind k b := by
  simp [countKind, List.filter_append]

theorem countKind_nil (k : String) : countKind k [] = 0 := rfl

theorem countKind_eq_zero_of_ne (k k0 : String) (d : Int) (p : Payload)
    (l : List SentPush) (hl : ∀ s ∈ l, s = ⟨k0, d, p⟩) (hne : k ≠ k0) :
    countKind k l = 0 := by
  simp only [countKind, List.length_eq_zero, List.filter_eq_nil_iff]
  intro s hs
  rw [hl s hs]
  simp [Ne.symm hne]

theorem countKind_pos_mem (k : String) (l : List SentPush)
    (h : 1 ≤ countKind k l) : ∃ s ∈ l, s.kind = k := by
  simp only [countKind] at h
  rcases List.exists_mem_of_length_pos h with ⟨s, hs⟩
  exact ⟨s, (List.mem_filter.mp hs).1, by simpa using (List.mem_filter.mp hs).2⟩

/-! ### tryFireAt specification lemmas -/

theorem tryFireAt_log (env : CronEnv) (uid : Nat) (k : String) (p : Payload)
    (kd : Int) (log : List LogEntry) :
    ∃ Δ, (tryFireAt env uid k p kd log).1 = log ++ Δ ∧
      ∀ e ∈ Δ, e = LogEntry.mk uid k kd env.localMin := by
  unfold tryFireAt
  split
  · exact ⟨[], by simp⟩
  · split
    · exact ⟨[⟨uid, k, kd, env.localMin⟩], rfl, by simp⟩
    · exact ⟨[], by simp⟩

theorem tryFireAt_sent (env : CronEnv) (uid : Nat) (k : String) (p : Payload)
    (kd : Int) (log : List LogEntry) :
    (∀ s ∈ (tryFireAt env uid k p kd log).2.1, s = SentPush.mk k kd p) ∧
      (tryFireAt env uid k p kd log).2.1.length ≤ 1 := by
  unfold tryFireAt
  split
  · simp
  · split <;> simp

theorem tryFireAt_att (env : CronEnv) (uid : Nat) (k : String) (p : Payload)
    (kd : Int) (log : List LogEntry) :
    ∀ s ∈ (tryFireAt env uid k p kd log).2.2, s = SentPush.mk k kd p := by
  unfold tryFireAt
  split
  · simp
  · split <;> simp

theorem tryFireAt_already (env : CronEnv) (uid : Nat) (k : String) (p : Payload)
    (kd : Int) (log : List LogEntry) (h : alreadySent log uid k kd = true) :
    tryFireAt env uid k p kd log = (log, [], []) := by
  unfold tryFireAt
  rw [if_pos h]

theorem tryFireAt_sent_logged (env : CronEnv) (uid : Nat) (k : String) (p : Payload)
    (kd : Int) (log : List LogEntry)
    (h : (tryFireAt env uid k p kd log).2.1 ≠ []) :
    alreadySent (tryFireAt env uid k p kd log).1 uid k kd = true := by
  by_cases ha : alreadySent log uid k kd = true
  · rw [tryFireAt_already env uid k p kd log ha] at h
    simp at h
  · unfold tryFireAt at h ⊢
    rw [if_neg ha] at h ⊢
    rcases hs : sendPushMain env.subs env.transport uid p with _ | _ | m
    · simpa using alreadySent_markSent_self log uid k kd env.localMin
    · rw [hs] at h
      simp at h
    · rw [hs] at h
      simp at h

/-! ### gfire / fire2 / fire3 specification lemmas -/

theorem gfire_log (env : CronEnv) (uid : Nat) (k : String) (p : Payload)
    (kd : Int) (log : List LogEntry) (c : Bool) :
    ∃ Δ, (gfire env uid k p kd log c).1 = log ++ Δ ∧
      ∀ e ∈ Δ, e = LogEntry.mk uid k kd env.localMin := by
  cases c
  · exact ⟨[], by simp [gfire], by simp⟩
  · simpa [gfire] using tryFireAt_log env uid k p kd log

theorem gfire_sent (env : CronEnv) (uid : Nat) (k : String) (p : Payload)
    (kd : Int) (log : List LogEntry) (c : Bool) :
    (∀ s ∈ (gfire env uid k p kd log c).2.1, s = SentPush.mk k kd p) ∧
      (gfire env uid k p kd log c).2.1.length ≤ 1 := by
  cases c
  · exact ⟨by simp [gfire], by simp [gfire]⟩
  · simpa [gfire] using tryFireAt_sent env uid k p kd log

theorem gfire_att (env : CronEnv) (uid : Nat) (k : String) (p : Payload)
    (kd : Int) (log : List LogEntry) (c : Bool) :
    ∀ s ∈ (gfire env uid k p kd log c).2.2, s = SentPush.mk k kd p := by
  cases c
  · simp [gfire]
  · simpa [gfire] using tryFireAt_att env uid k p kd log

theorem gfire_already (env : CronEnv) (uid : Nat) (k : String) (p : Payload)
    (kd : Int) (log : List LogEntry) (c : Bool)
    (h : alreadySent log uid k kd = true) :
    gfire env uid k p kd log c = (log, [], []) := by
  cases c
  · simp [gfire]
  · simpa [gfire] using tryFireAt_already env uid k p kd log h

theorem gfire_sent_logged (env : CronEnv) (uid : Nat) (k : String) (p : Payload)
    (kd : Int) (log : List LogEntry) (c : Bool)
    (h : (gfire env uid k p kd log c).2.1 ≠ []) :
    alreadySent (gfire env uid k p kd log c).1 uid k kd = true := by
  cases c
  · simp [gfire] at h
  · simpa [gfire] using tryFireAt_sent_logged env uid k p kd log (by simpa [gfire] using h)

/-- `countKind` of a list whose members are all one concrete push. -/
theorem countKind_of_uniform (k k0 : String) (d : Int) (p : Payload)
    (l : List SentPush) (hl : ∀ s ∈ l, s = ⟨k0, d, p⟩) :
    countKind k l = if k = k0 then l.length else 0 := by
  split
  · rename_i hk
    subst hk
    simp only [countKind]
    congr 1
    apply List.filter_eq_self.mpr
    intro s hs
    rw [hl s hs]
    simp
  · rename_i hk
    exact countKind_eq_zero_of_ne k k0 d p l hl hk

theorem fire2_log (env : CronEnv) (uid : Nat) (k1 k2 : String) (p1 p2 : Payload)
    (kd : Int) (c1 c2 : Bool) (log : List LogEntry) :
    ∃ Δ, (fire2 env uid k1 k2 p1 p2 kd c1 c2 log).1 = log ++ Δ ∧
      ∀ e ∈ Δ, e = LogEntry.mk uid k1 kd env.localMin ∨
        e = LogEntry.mk uid k2 kd env.localMin := by
  obtain ⟨Δ1, h1, he1⟩ := gfire_log env uid k1 p1 kd log c1
  obtain ⟨Δ2, h2, he2⟩ :=
    gfire_log env uid k2 p2 kd (gfire env uid k1 p1 kd log c1).1 c2
  refine ⟨Δ1 ++ Δ2, ?_, ?_⟩
  · show (gfire env uid k2 p2 kd (gfire env uid k1 p1 kd log c1).1 c2).1 = _
    rw [h2, h1, List.append_assoc]
  · intro e he
    rcases List.mem_append.mp he with h | h
    · exact Or.inl (he1 e h)
    · exact Or.inr (he2 e h)

theorem fire2_count_le (env : CronEnv) (uid : Nat) (k1 k2 : String) (p1 p2 : Payload)
    (kd : Int) (c1 c2 : Bool) (log : List LogEntry) (k : String) (hk : k1 ≠ k2) :
    countKind k (fire2 env uid k1 k2 p1 p2 kd c1 c2 log).2.1 ≤ 1 := by
  obtain ⟨hu1, hl1⟩ := gfire_sent env uid k1 p1 kd log c1
  obtain ⟨hu2, hl2⟩ :=
    gfire_sent env uid k2 p2 kd (gfire env uid k1 p1 kd log c1).1 c2
  show countKind k (_ ++ _) ≤ 1
  rw [countKind_append, countKind_of_uniform k k1 kd p1 _ hu1,
    countKind_of_uniform k k2 kd p2 _ hu2]
  by_cases h1 : k = k1
  · by_cases h2 : k = k2
    · exact absurd (h1.symm.trans h2) hk
    · simpa [h1, h2, hk] using hl1
  · by_cases h2 : k = k2
    · simpa [h1, h2, Ne.symm hk] using hl2
    · simp [h1, h2]

theorem fire2_already (env : CronEnv) (uid : Nat) (k1 k2 : String) (p1 p2 : Payload)
    (kd : Int) (c1 c2 : Bool) (log : List LogEntry) (k : String)
    (h : alreadySent log uid k kd = true) :
    countKind k (fire2 env uid k1 k2 p1 p2 kd c1 c2 log).2.1 = 0 ∧
      countKind k (fire2 env uid k1 k2 p1 p2 kd c1 c2 log).2.2 = 0 := by
  obtain ⟨hu1, _⟩ := gfire_sent env uid k1 p1 kd log c1
  obtain ⟨hu2, _⟩ := gfire_sent env uid k2 p2 kd (gfire env uid k1 p1 kd log c1).1 c2
  have ha1 := gfire_att env uid k1 p1 kd log c1
  have ha2 := gfire_att env uid k2 p2 kd (gfire env uid k1 p1 kd log c1).1 c2
  have h2 : alreadySent (gfire env uid k1 p1 kd log c1).1 uid k kd = true := by
    obtain ⟨Δ1, hΔ1, _⟩ := gfire_log env uid k1 p1 kd log c1
    rw [hΔ1]
    exact alreadySent_mono Δ1 h
  have hc1 : countKind k (gfire env uid k1 p1 kd log c1).2.1 = 0 := by
    by_cases hk1 : k = k1
    · subst hk1
      rw [gfire_already env uid k p1 kd log c1 h]
      rfl
    · exact countKind_eq_zero_of_ne k k1 kd p1 _ hu1 hk1
  have hc2 : countKind k (gfire env uid k2 p2 kd (gfire env uid k1 p1 kd log c1).1 c2).2.1 = 0 := by
    by_cases hk2 : k = k2
    · subst hk2
      rw [gfire_already env uid k p2 kd _ c2 h2]
      rfl
    · exact countKind_eq_zero_of_ne k k2 kd p2 _ hu2 hk2
  have hd1 : countKind k (gfire env uid k1 p1 kd log c1).2.2 = 0 := by
    by_cases hk1 : k = k1
    · subst hk1
      rw [gfire_already env uid k p1 kd log c1 h]
      rfl
    · exact countKind_eq_zero_of_ne k k1 kd p1 _ ha1 hk1
  have hd2 : countKind k (gfire env uid k2 p2 kd (gfire env uid k1 p1 kd log c1).1 c2).2.2 = 0 := by
    by_cases hk2 : k = k2
    · subst hk2
      rw [gfire_already env uid k p2 kd _ c2 h2]
      rfl
    · exact countKind_eq_zero_of_ne k k2 kd p2 _ ha2 hk2
  constructor
  · show countKind k (_ ++ _) = 0
    rw [countKind_append, hc1, hc2]
  · show countKind k (_ ++ _) = 0
    rw [countKind_append, hd1, hd2]

theorem fire2_sent_logged (env : CronEnv) (uid : Nat) (k1 k2 : String)
    (p1 p2 : Payload) (kd : Int) (c1 c2 : Bool) (log : List LogEntry) (k : String)
    (h : 1 ≤ countKind k (fire2 env uid k1 k2 p1 p2 kd c1 c2 log).2.1) :
    alreadySent (fire2 env uid k1 k2 p1 p2 kd c1 c2 log).1 uid k kd = true := by
  obtain ⟨hu1, _⟩ := gfire_sent env uid k1 p1 kd log c1
  obtain ⟨hu2, _⟩ := gfire_sent env uid k2 p2 kd (gfire env uid k1 p1 kd log c1).1 c2
  have hsplit : countKind k (fire2 env uid k1 k2 p1 p2 kd c1 c2 log).2.1 =
      countKind k (gfire env uid k1 p1 kd log c1).2.1 +
        countKind k (gfire env uid k2 p2 kd (gfire env uid k1 p1 kd log c1).1 c2).2.1 := by
    show countKind k (_ ++ _) = _
    rw [countKind_append]
  rw [hsplit] at h
  show alreadySent (gfire env uid k2 p2 kd (gfire env uid k1 p1 kd log c1).1 c2).1 uid k kd = true
  rcases Nat.lt_or_ge 0 (countKind k (gfire env uid k1 p1 kd log c1).2.1) with h1 | h1
  · have hne : (gfire env uid k1 p1 kd log c1).2.1 ≠ [] := by
      intro hnil
      rw [hnil] at h1
      simp [countKind] at h1
    have hkk1 : k = k1 := by
      obtain ⟨s, hs, hsk⟩ := countKind_pos_mem k _ h1
      rw [hu1 s hs] at hsk
      exact hsk.symm
    subst hkk1
    have hlog1 := gfire_sent_logged env uid k p1 kd log c1 hne
    obtain ⟨Δ2, hΔ2, _⟩ := gfire_log env uid k2 p2 kd (gfire env uid k p1 kd log c1).1 c2
    rw [hΔ2]
    exact alreadySent_mono Δ2 hlog1
  · have h2 : 1 ≤ countKind k (gfire env uid k2 p2 kd (gfire env uid k1 p1 kd log c1).1 c2).2.1 := by
      omega
    have hne : (gfire env uid k2 p2 kd (gfire env uid k1 p1 kd log c1).1 c2).2.1 ≠ [] := by
      intro hnil
      rw [hnil] at h2
      simp [countKind] at h2
    have hkk2 : k = k2 := by
      obtain ⟨s, hs, hsk⟩ := countKind_pos_mem k _ h2
      rw [hu2 s hs] at hsk
      exact hsk.symm
    subst hkk2
    exact gfire_sent_logged env uid k p2 kd _ c2 hne

theorem countKind_eq_zero_of_ne_kinds (k : String) (l : List SentPush)
    (h : ∀ s ∈ l, s.kind ≠ k) : countKind k l = 0 := by
  simp only [countKind, List.length_eq_zero, List.filter_eq_nil_iff]
  intro s hs
  simp [h s hs]

/-! ### runReminderStep specification lemmas -/

theorem rrs_log (env : CronEnv) (uid : Nat) (due : Bool) (log : List LogEntry) :
    ∃ Δ, (runReminderStep env uid due log).1 = log ++ Δ ∧
      ∀ e ∈ Δ, e = LogEntry.mk uid "daily_reminder" env.localDate env.localMin := by
  unfold runReminderStep
  split
  · split
    · exact ⟨[], by simp, by simp⟩
    · split
      · exact ⟨[], by simp, by simp⟩
      · exact ⟨[⟨uid, "daily_reminder", env.localDate, env.localMin⟩], rfl, by simp⟩
      · split
        · exact ⟨[⟨uid, "daily_reminder", env.localDate, env.localMin⟩], rfl, by simp⟩
        · exact ⟨[], by simp, by simp⟩
  · exact ⟨[], by simp, by simp⟩

theorem rrs_sent (env : CronEnv) (uid : Nat) (due : Bool) (log : List LogEntry) :
    (∀ s ∈ (runReminderStep env uid due log).2.1,
        s = SentPush.mk "daily_reminder" env.localDate payloadReminder) ∧
      (runReminderStep env uid due log).2.1.length ≤ 1 := by
  unfold runReminderStep
  split
  · split
    · simp
    · split
      · simp
      · simp
      · split <;> simp
  · simp

theorem rrs_att (env : CronEnv) (uid : Nat) (due : Bool) (log : List LogEntry) :
    ∀ s ∈ (runReminderStep env uid due log).2.2.1,
      s = SentPush.mk "daily_reminder" env.localDate payloadReminder := by
  unfold runReminderStep
  split
  · split
    · simp
    · split
      · simp
      · simp
      · split <;> simp
  · simp

theorem rrs_already (env : CronEnv) (uid : Nat) (due : Bool) (log : List LogEntry)
    (h : alreadySent log uid "daily_reminder" env.localDate = true) :
    runReminderStep env uid due log = (log, [], [], none) := by
  cases due
  · rfl
  · unfold runReminderStep
    rw [if_pos rfl, if_pos h]

theorem rrs_sent_logged (env : CronEnv) (uid : Nat) (due : Bool) (log : List LogEntry)
    (h : (runReminderStep env uid due log).2.1 ≠ []) :
    alreadySent (runReminderStep env uid due log).1 uid "daily_reminder" env.localDate = true := by
  cases due
  · simp [runReminderStep] at h
  · unfold runReminderStep at h ⊢
    rw [if_pos rfl] at h ⊢
    by_cases ha : alreadySent log uid "daily_reminder" env.localDate = true
    · rw [if_pos ha] at h
      simp at h
    · rw [if_neg ha] at h ⊢
      rcases hp : areAllPillarsCompletedToday env.dailyDb uid env.utcDate with msg | b
      · rw [hp] at h
        simp at h
      · rw [hp] at h
        cases b
        · rcases hs : sendPushMain env.subs env.transport uid payloadReminder with _ | _ | m
          · simpa using
              alreadySent_markSent_self log uid "daily_reminder" env.localDate env.localMin
          · rw [hs] at h
            simp at h
          · rw [hs] at h
            simp at h
        · simpa using
            alreadySent_markSent_self log uid "daily_reminder" env.localDate env.localMin

/-! ### runFasting specification lemmas -/

theorem rf_log (env : CronEnv) (u : UserRow) (log : List LogEntry) :
    ∃ Δ, (runFasting env u log).1 = log ++ Δ ∧
      ∀ e ∈ Δ, e.userId = u.userId ∧ e.localDate = env.localDate ∧
        (e.kind = "window_start" ∨ e.kind = "window_end") := by
  unfold runFasting
  cases hu : u.fasting with
  | none => exact ⟨[], by simp, by simp⟩
  | some fs =>
    cases hw : u.push_fasting_windows with
    | false => exact ⟨[], by simp, by simp⟩
    | true =>
      simp only [if_true]
      obtain ⟨Δ, hΔ, he⟩ := fire2_log env u.userId "window_start" "window_end"
        payloadWindowStart payloadWindowEnd env.localDate
        (fs.notify_window_start && inLastWindow env.localMin (timeToMinutes fs.eating_start) 5)
        (fs.notify_window_end && inLastWindow env.localMin
          (mod1440 (timeToMinutes fs.eating_start + (fs.eating_hours.getD 0) * 60)) 5) log
      refine ⟨Δ, hΔ, ?_⟩
      intro e hin
      rcases he e hin with h | h <;> rw [h] <;> simp

theorem rf_sent_kinds (env : CronEnv) (u : UserRow) (log : List LogEntry) :
    ∀ s ∈ (runFasting env u log).2.1,
      (s.kind = "window_start" ∨ s.kind = "window_end") ∧ s.localDate = env.localDate := by
  unfold runFasting
  cases hu : u.fasting with
  | none => simp
  | some fs =>
    cases hw : u.push_fasting_windows with
    | false => simp
    | true =>
      simp only [if_true]
      intro s hs
      obtain ⟨hu1, _⟩ := gfire_sent env u.userId "window_start" payloadWindowStart env.localDate log
        (fs.notify_window_start && inLastWindow env.localMin (timeToMinutes fs.eating_start) 5)
      obtain ⟨hu2, _⟩ := gfire_sent env u.userId "window_end" payloadWindowEnd env.localDate
        (gfire env u.userId "window_start" payloadWindowStart env.localDate log
          (fs.notify_window_start && inLastWindow env.localMin (timeToMinutes fs.eating_start) 5)).1
        (fs.notify_window_end && inLastWindow env.localMin
          (mod1440 (timeToMinutes fs.eating_start + (fs.eating_hours.getD 0) * 60)) 5)
      rcases List.mem_append.mp hs with h | h
      · rw [hu1 s h]
        simp
      · rw [hu2 s h]
        simp

theorem rf_att_kinds (env : CronEnv) (u : UserRow) (log : List LogEntry) :
    ∀ s ∈ (runFasting env u log).2.2,
      s.kind = "window_start" ∨ s.kind = "window_end" := by
  unfold runFasting
  cases hu : u.fasting with
  | none => simp
  | some fs =>
    cases hw : u.push_fasting_windows with
    | false => simp
    | true =>
      simp only [if_true]
      intro s hs
      have ha1 := gfire_att env u.userId "window_start" payloadWindowStart env.localDate log
        (fs.notify_window_start && inLastWindow env.localMin (timeToMinutes fs.eating_start) 5)
      have ha2 := gfire_att env u.userId "window_end" payloadWindowEnd env.localDate
        (gfire env u.userId "window_start" payloadWindowStart env.localDate log
          (fs.notify_window_start && inLastWindow env.localMin (timeToMinutes fs.eating_start) 5)).1
        (fs.notify_window_end && inLastWindow env.localMin
          (mod1440 (timeToMinutes fs.eating_start + (fs.eating_hours.getD 0) * 60)) 5)
      rcases List.mem_append.mp hs with h | h
      · rw [ha1 s h]
        simp
      · rw [ha2 s h]
        simp

theorem rf_count_le (env : CronEnv) (u : UserRow) (log : List LogEntry) (k : String) :
    countKind k (runFasting env u log).2.1 ≤ 1 := by
  unfold runFasting
  cases hu : u.fasting with
  | none => simp [countKind]
  | some fs =>
    cases hw : u.push_fasting_windows with
    | false => simp [countKind]
    | true =>
      simp only [if_true]
      exact fire2_count_le env u.userId "window_start" "window_end"
        payloadWindowStart payloadWindowEnd env.localDate _ _ log k (by decide)

theorem rf_already (env : CronEnv) (u : UserRow) (log : List LogEntry) (k : String)
    (h : alreadySent log u.userId k env.localDate = true) :
    countKind k (runFasting env u log).2.1 = 0 ∧
      countKind k (runFasting env u log).2.2 = 0 := by
  unfold runFasting
  cases hu : u.fasting with
  | none => simp [countKind]
  | some fs =>
    cases hw : u.push_fasting_windows with
    | false => simp [countKind]
    | true =>
      simp only [if_true]
      exact fire2_already env u.userId "window_start" "window_end"
        payloadWindowStart payloadWindowEnd env.localDate _ _ log k h

theorem rf_sent_logged (env : CronEnv) (u : UserRow) (log : List LogEntry) (k : String)
    (h : 1 ≤ countKind k (runFasting env u log).2.1) :
    alreadySent (runFasting env u log).1 u.userId k env.localDate = true := by
  unfold runFasting at h ⊢
  cases hu : u.fasting with
  | none =>
    rw [hu] at h
    simp [countKind] at h
  | some fs =>
    rw [hu] at h
    cases hw : u.push_fasting_windows with
    | false =>
      rw [hw] at h
      simp [countKind] at h
    | true =>
      rw [hw] at h
      exact fire2_sent_logged env u.userId "window_start" "window_end"
        payloadWindowStart payloadWindowEnd env.localDate _ _ log k h

/-! ### runUser specification lemmas -/

theorem countKind_le_length (k : String) (l : List SentPush) :
    countKind k l ≤ l.length :=
  List.length_filter_le _ l

theorem ru_log (env : CronEnv) (u : UserRow) (log : List LogEntry) :
    ∃ Δ, (runUser env u log).log = log ++ Δ ∧
      ∀ e ∈ Δ, e.userId = u.userId ∧ e.localDate = env.localDate ∧
        (e.kind = "window_start" ∨ e.kind = "window_end" ∨ e.kind = "daily_reminder") := by
  unfold runUser
  cases he : u.push_enabled with
  | false => exact ⟨[], by simp, by simp⟩
  | true =>
    obtain ⟨Δ1, h1, he1⟩ := rf_log env u log
    obtain ⟨Δ2, h2, he2⟩ := rrs_log env u.userId (dueReminder env u) (runFasting env u log).1
    refine ⟨Δ1 ++ Δ2, ?_, ?_⟩
    · show (runReminderStep env u.userId (dueReminder env u) (runFasting env u log).1).1 =
        log ++ (Δ1 ++ Δ2)
      rw [h2, h1, List.append_assoc]
    · intro e hmem
      rcases List.mem_append.mp hmem with hm | hm
      · obtain ⟨ha, hb, hc⟩ := he1 e hm
        exact ⟨ha, hb, by tauto⟩
      · rw [he2 e hm]
        simp

theorem ru_already (env : CronEnv) (u : UserRow) (log : List LogEntry) (k : String)
    (h : alreadySent log u.userId k env.localDate = true) :
    countKind k (runUser env u log).sent = 0 ∧
      countKind k (runUser env u log).att = 0 := by
  unfold runUser
  cases he : u.push_enabled with
  | false => exact ⟨rfl, rfl⟩
  | true =>
    obtain ⟨hf1, hf2⟩ := rf_already env u log k h
    have hmono : alreadySent (runFasting env u log).1 u.userId k env.localDate = true := by
      obtain ⟨Δ1, h1, _⟩ := rf_log env u log
      rw [h1]
      exact alreadySent_mono Δ1 h
    have hRs : countKind k
        (runReminderStep env u.userId (dueReminder env u) (runFasting env u log).1).2.1 = 0 := by
      by_cases hk : k = "daily_reminder"
      · subst hk
        rw [rrs_already env u.userId (dueReminder env u) _ hmono]
        rfl
      · exact countKind_eq_zero_of_ne k "daily_reminder" env.localDate payloadReminder _
          (rrs_sent env u.userId (dueReminder env u) (runFasting env u log).1).1 hk
    have hRa : countKind k
        (runReminderStep env u.userId (dueReminder env u) (runFasting env u log).1).2.2.1 = 0 := by
      by_cases hk : k = "daily_reminder"
      · subst hk
        rw [rrs_already env u.userId (dueReminder env u) _ hmono]
        rfl
      · exact countKind_eq_zero_of_ne k "daily_reminder" env.localDate payloadReminder _
          (rrs_att env u.userId (dueReminder env u) (runFasting env u log).1) hk
    constructor
    · show countKind k ((runFasting env u log).2.1 ++
        (runReminderStep env u.userId (dueReminder env u) (runFasting env u log).1).2.1) = 0
      rw [countKind_append, hf1, hRs]
    · show countKind k ((runFasting env u log).2.2 ++
        (runReminderStep env u.userId (dueReminder env u) (runFasting env u log).1).2.2.1) = 0
      rw [countKind_append, hf2, hRa]

theorem ru_count_le (env : CronEnv) (u : UserRow) (log : List LogEntry) (k : String) :
    countKind k (runUser env u log).sent ≤ 1 := by
  unfold runUser
  cases he : u.push_enabled with
  | false => exact Nat.zero_le 1
  | true =>
    show countKind k ((runFasting env u log).2.1 ++
      (runReminderStep env u.userId (dueReminder env u) (runFasting env u log).1).2.1) ≤ 1
    rw [countKind_append]
    by_cases hk : k = "daily_reminder"
    · subst hk
      have hF : countKind "daily_reminder" (runFasting env u log).2.1 = 0 := by
        apply countKind_eq_zero_of_ne_kinds
        intro s hs
        rcases (rf_sent_kinds env u log s hs).1 with hws | hwe
        · rw [hws]
          decide
        · rw [hwe]
          decide
      have hR := Nat.le_trans
        (countKind_le_length "daily_reminder"
          (runReminderStep env u.userId (dueReminder env u) (runFasting env u log).1).2.1)
        (rrs_sent env u.userId (dueReminder env u) (runFasting env u log).1).2
      omega
    · have hR : countKind k
          (runReminderStep env u.userId (dueReminder env u) (runFasting env u log).1).2.1 = 0 :=
        countKind_eq_zero_of_ne k "daily_reminder" env.localDate payloadReminder _
          (rrs_sent env u.userId (dueReminder env u) (runFasting env u log).1).1 hk
      have hF := rf_count_le env u log k
      omega

theorem ru_sent_logged (env : CronEnv) (u : UserRow) (log : List LogEntry) (k : String)
    (h : 1 ≤ countKind k (runUser env u log).sent) :
    alreadySent (runUser env u log).log u.userId k env.localDate = true := by
  unfold runUser at h ⊢
  cases he : u.push_enabled with
  | false =>
    rw [he] at h
    simp [countKind] at h
  | true =>
    rw [he] at h
    have hsplit : countKind k ((runFasting env u log).2.1 ++
        (runReminderStep env u.userId (dueReminder env u) (runFasting env u log).1).2.1) =
        countKind k (runFasting env u log).2.1 + countKind k
          (runReminderStep env u.userId (dueReminder env u) (runFasting env u log).1).2.1 :=
      countKind_append k _ _
    have h2 : 1 ≤ countKind k (runFasting env u log).2.1 + countKind k
        (runReminderStep env u.userId (dueReminder env u) (runFasting env u log).1).2.1 := by
      calc 1 ≤ countKind k ((runFasting env u log).2.1 ++
          (runReminderStep env u.userId (dueReminder env u) (runFasting env u log).1).2.1) := h
        _ = _ := hsplit
    show alreadySent
      (runReminderStep env u.userId (dueReminder env u) (runFasting env u log).1).1
      u.userId k env.localDate = true
    by_cases hk : k = "daily_reminder"
    · subst hk
      have hF : countKind "daily_reminder" (runFasting env u log).2.1 = 0 := by
        apply countKind_eq_zero_of_ne_kinds
        intro s hs
        rcases (rf_sent_kinds env u log s hs).1 with hws | hwe
        · rw [hws]
          decide
        · rw [hwe]
          decide
      have hRpos : 1 ≤ countKind "daily_reminder"
          (runReminderStep env u.userId (dueReminder env u) (runFasting env u log).1).2.1 := by
        omega
      have hne : (runReminderStep env u.userId (dueReminder env u) (runFasting env u log).1).2.1 ≠ [] := by
        intro hnil
        rw [hnil] at hRpos
        simp [countKind] at hRpos
      exact rrs_sent_logged env u.userId (dueReminder env u) (runFasting env u log).1 hne
    · have hR : countKind k
          (runReminderStep env u.userId (dueReminder env u) (runFasting env u log).1).2.1 = 0 :=
        countKind_eq_zero_of_ne k "daily_reminder" env.localDate payloadReminder _
          (rrs_sent env u.userId (dueReminder env u) (runFasting env u log).1).1 hk
      have hFpos : 1 ≤ countKind k (runFasting env u log).2.1 := by omega
      have hlogF := rf_sent_logged env u log k hFpos
      obtain ⟨Δ2, h2log, _⟩ := rrs_log env u.userId (dueReminder env u) (runFasting env u log).1
      rw [h2log]
      exact alreadySent_mono Δ2 hlogF

theorem inLastWindow_iff (l t w : Int) :
    inLastWindow l t w = true ↔ 0 ≤ (l - t) % 1440 ∧ (l - t) % 1440 < w := by
  simp only [inLastWindow, mod1440_eq_emod, Bool.and_eq_true, decide_eq_true_eq]

/-- C2: the eligibility predicate `inLastWindow(localMin, targetMin, 5)`
of the latest scheduler iteration returns `true` exactly when
`(localMin - targetMin) mod 1440` (non-negative representative) lies in
`[0, 5)`; the target minute itself and the four minutes after it (wrapping
across midnight) are eligible and no others are. -/
theorem c2_inLastWindow_characterization (localMin targetMin : Int) :
    inLastWindow localMin targetMin 5 = true ↔
      0 ≤ (localMin - targetMin) % 1440 ∧ (localMin - targetMin) % 1440 < 5 :=
  inLastWindow_iff localMin targetMin 5

/-- C10 counterexample: the two iterations' eligibility predicates are
*not* equivalent for every window size `w ≥ 1`: at
`nowMin = 5, targetMin = 0, w = 1441` the diff-based `inLastWindow` accepts
while the interval-based `inLastNMinutesWindow` rejects. -/
theorem c10_counterexample :
    inLastWindow 5 0 1441 = true ∧ inLastNMinutesWindow 0 5 1441 = false := by
  constructor
  · decide
  · decide

/-- C10 (amended): for every window size `1 ≤ w ≤ 1440` (which covers the
`w = 5` used by both schedulers), the diff-based `inLastWindow` of the latest
iteration and the interval-based `inLastNMinutesWindow` of the earlier
iteration agree, and both are equivalent to
`(nowMin - targetMin) mod 1440 < w`. -/
theorem c10_window_predicates_equiv (nowMin targetMin w : Int)
    (hw1 : 1 ≤ w) (hw2 : w ≤ 1440) :
    inLastWindow nowMin targetMin w = inLastNMinutesWindow targetMin nowMin w ∧
      (inLastWindow nowMin targetMin w = true ↔ (nowMin - targetMin) % 1440 < w) := by
  have hchar : inLastWindow nowMin targetMin w = true ↔
      (nowMin - targetMin) % 1440 < w := by
    rw [inLastWindow_iff]
    have := Int.emod_nonneg (nowMin - targetMin) (show (1440 : Int) ≠ 0 by norm_num)
    omega
  refine ⟨?_, hchar⟩
  rw [Bool.eq_iff_iff, hchar]
  unfold inLastNMinutesWindow
  simp only [mod1440_eq_emod]
  have hd := Int.emod_nonneg (nowMin - targetMin) (show (1440 : Int) ≠ 0 by norm_num)
  have hd2 := Int.emod_lt_of_pos (nowMin - targetMin) (show (0 : Int) < 1440 by norm_num)
  have he1 := Int.emod_nonneg nowMin (show (1440 : Int) ≠ 0 by norm_num)
  have he2 := Int.emod_lt_of_pos nowMin (show (0 : Int) < 1440 by norm_num)
  have hs1 := Int.emod_nonneg (nowMin - (w - 1)) (show (1440 : Int) ≠ 0 by norm_num)
  have hs2 := Int.emod_lt_of_pos (nowMin - (w - 1)) (show (0 : Int) < 1440 by norm_num)
  have ht1 := Int.emod_nonneg targetMin (show (1440 : Int) ≠ 0 by norm_num)
  have ht2 := Int.emod_lt_of_pos targetMin (show (0 : Int) < 1440 by norm_num)
  split
  · simp only [Bool.and_eq_true, decide_eq_true_eq]
    omega
  · simp only [Bool.or_eq_true, decide_eq_true_eq]
    omega

/-- C1: per user, trigger kind and local date, across any number of
sequential scheduler invocations on that local date under the same settings,
at most one push of that kind is delivered; and once a send-log row for
`(user, kind, local_date)` exists before a run, no later invocation delivers
that kind again nor even calls `sendPush` for it (zero attempts), because
`alreadySent` keeps returning `true`. -/
theorem c1_at_most_one_send_per_triple (u : UserRow) (k : String) (d : Int)
    (envs : List CronEnv) (log : List LogEntry)
    (hd : ∀ e ∈ envs, e.localDate = d) :
    countKind k (runSeq u envs log).2.1 ≤ 1 ∧
      (alreadySent log u.userId k d = true →
        countKind k (runSeq u envs log).2.1 = 0 ∧
          countKind k (runSeq u envs log).2.2 = 0) := by
  induction envs generalizing log with
  | nil => exact ⟨by simp [runSeq, countKind], fun _ => ⟨rfl, rfl⟩⟩
  | cons env es ih =>
    have hd1 : env.localDate = d := hd env (List.mem_cons_self env es)
    have hd2 : ∀ e ∈ es, e.localDate = d := fun e he => hd e (List.mem_cons_of_mem env he)
    obtain ⟨ih1, ih2⟩ := ih (runUser env u log).log hd2
    have hsecond : alreadySent log u.userId k d = true →
        countKind k ((runUser env u log).sent ++ (runSeq u es (runUser env u log).log).2.1) = 0 ∧
          countKind k ((runUser env u log).att ++ (runSeq u es (runUser env u log).log).2.2) = 0 := by
      intro ha
      have h0 := ru_already env u log k (by rw [hd1]; exact ha)
      have hmono : alreadySent (runUser env u log).log u.userId k d = true := by
        obtain ⟨Δ, hΔ, _⟩ := ru_log env u log
        rw [hΔ]
        exact alreadySent_mono Δ ha
      obtain ⟨hr1, hr2⟩ := ih2 hmono
      constructor
      · rw [countKind_append, h0.1, hr1]
      · rw [countKind_append, h0.2, hr2]
    constructor
    · show countKind k
        ((runUser env u log).sent ++ (runSeq u es (runUser env u log).log).2.1) ≤ 1
      by_cases ha : alreadySent log u.userId k d = true
      · rw [(hsecond ha).1]
        exact Nat.zero_le 1
      · rw [countKind_append]
        rcases Nat.lt_or_ge (countKind k (runUser env u log).sent) 1 with hlt | hge
        · have h1 : countKind k (runUser env u log).sent = 0 := by omega
          omega
        · have hlog := ru_sent_logged env u log k hge
          have hmono : alreadySent (runUser env u log).log u.userId k d = true := by
            rw [← hd1]
            exact hlog
          obtain ⟨hr1, _⟩ := ih2 hmono
          have hle := ru_count_le env u log k
          omega
    · exact hsecond

/-- Concrete witness for C1: a user with the daily reminder due at both of
two invocations on the same local date delivers it exactly once in total
(the hypothesis and the bound are checked at this input). -/
theorem c1_at_most_one_send_per_triple_witness :
    (∀ e ∈ [w1Env, w1Env], e.localDate = 5) ∧
      (countKind "daily_reminder" (runSeq w1User [w1Env, w1Env] []).2.1 ≤ 1 ∧
        (alreadySent [] w1User.userId "daily_reminder" 5 = true →
          countKind "daily_reminder" (runSeq w1User [w1Env, w1Env] []).2.1 = 0 ∧
            countKind "daily_reminder" (runSeq w1User [w1Env, w1Env] []).2.2 = 0)) :=
  ⟨by decide,
    c1_at_most_one_send_per_triple w1User "daily_reminder" 5 [w1Env, w1Env] [] (by decide)⟩

/-! ### Helper lemmas for C4 and C6 -/

theorem runUser_enabled_eq (env : CronEnv) (u : UserRow) (log : List LogEntry)
    (hen : u.push_enabled = true) :
    runUser env u log =
      ⟨(runReminderStep env u.userId (dueReminder env u) (runFasting env u log).1).1,
        (runFasting env u log).2.1 ++
          (runReminderStep env u.userId (dueReminder env u) (runFasting env u log).1).2.1,
        (runFasting env u log).2.2 ++
          (runReminderStep env u.userId (dueReminder env u) (runFasting env u log).1).2.2.1,
        (runReminderStep env u.userId (dueReminder env u) (runFasting env u log).1).2.2.2⟩ := by
  unfold runUser
  rw [hen]
  rfl

theorem rf_preserves_reminder_key (env : CronEnv) (u : UserRow) (log : List LogEntry) :
    alreadySent (runFasting env u log).1 u.userId "daily_reminder" env.localDate =
      alreadySent log u.userId "daily_reminder" env.localDate := by
  obtain ⟨Δ, hΔ, he⟩ := rf_log env u log
  rw [hΔ]
  apply alreadySent_append_irrelevant
  intro e hmem
  left
  rcases (he e hmem).2.2 with h | h <;> rw [h] <;> decide

theorem countKind_reminder_rf_zero (env : CronEnv) (u : UserRow) (log : List LogEntry) :
    countKind "daily_reminder" (runFasting env u log).2.1 = 0 := by
  apply countKind_eq_zero_of_ne_kinds
  intro s hs
  rcases (rf_sent_kinds env u log s hs).1 with h | h <;> rw [h] <;> decide

theorem countKind_reminder_rf_att_zero (env : CronEnv) (u : UserRow) (log : List LogEntry) :
    countKind "daily_reminder" (runFasting env u log).2.2 = 0 := by
  apply countKind_eq_zero_of_ne_kinds
  intro s hs
  rcases rf_att_kinds env u log s hs with h | h <;> rw [h] <;> decide

/-- C4: when the daily reminder is due and not yet logged, the scheduler
logs without sending if all four pillars are complete (no `sendPush` call,
no delivered push), and otherwise sends the reminder and writes the send-log
row exactly when the transport accepted it. -/
theorem c4_reminder_completion_suppression (env : CronEnv) (u : UserRow)
    (log : List LogEntry) (r : Int)
    (hen : u.push_enabled = true)
    (hrem : u.push_daily_reminder = true)
    (hr : u.daily_reminder_time_min = some r)
    (hdue : inLastWindow env.localMin r 5 = true)
    (hnot : alreadySent log u.userId "daily_reminder" env.localDate = false) :
    (areAllPillarsCompletedToday env.dailyDb u.userId env.utcDate = Except.ok true →
      alreadySent (runUser env u log).log u.userId "daily_reminder" env.localDate = true ∧
        countKind "daily_reminder" (runUser env u log).sent = 0 ∧
        countKind "daily_reminder" (runUser env u log).att = 0) ∧
    (areAllPillarsCompletedToday env.dailyDb u.userId env.utcDate = Except.ok false →
      countKind "daily_reminder" (runUser env u log).sent =
        (if sendPushMain env.subs env.transport u.userId payloadReminder = SendOutcome.ok
          then 1 else 0) ∧
      (alreadySent (runUser env u log).log u.userId "daily_reminder" env.localDate = true ↔
        sendPushMain env.subs env.transport u.userId payloadReminder = SendOutcome.ok)) := by
  have hdueRem : dueReminder env u = true := by
    simp [dueReminder, hrem, hr, hdue]
  have hnotF : alreadySent (runFasting env u log).1 u.userId "daily_reminder" env.localDate = false := by
    rw [rf_preserves_reminder_key]
    exact hnot
  rw [runUser_enabled_eq env u log hen, hdueRem]
  constructor
  · intro hall
    have hRstep : runReminderStep env u.userId true (runFasting env u log).1 =
        (markSent (runFasting env u log).1 u.userId "daily_reminder" env.localDate env.localMin,
          [], [], none) := by
      unfold runReminderStep
      rw [if_pos rfl, if_neg (by rw [hnotF]; simp), hall]
    rw [hRstep]
    refine ⟨alreadySent_markSent_self _ _ _ _ _, ?_, ?_⟩
    · show countKind "daily_reminder" ((runFasting env u log).2.1 ++ []) = 0
      rw [countKind_append, countKind_reminder_rf_zero]
      rfl
    · show countKind "daily_reminder" ((runFasting env u log).2.2 ++ []) = 0
      rw [countKind_append, countKind_reminder_rf_att_zero]
      rfl
  · intro hall
    rcases hs : sendPushMain env.subs env.transport u.userId payloadReminder with _ | _ | m
    · have hRstep : runReminderStep env u.userId true (runFasting env u log).1 =
          (markSent (runFasting env u log).1 u.userId "daily_reminder" env.localDate env.localMin,
            [⟨"daily_reminder", env.localDate, payloadReminder⟩],
            [⟨"daily_reminder", env.localDate, payloadReminder⟩], none) := by
        unfold runReminderStep
        rw [if_pos rfl, if_neg (by rw [hnotF]; simp), hall, hs]
      rw [hRstep]
      constructor
      · show countKind "daily_reminder"
          ((runFasting env u log).2.1 ++ [⟨"daily_reminder", env.localDate, payloadReminder⟩]) = _
        rw [countKind_append, countKind_reminder_rf_zero, if_pos rfl]
        rfl
      · simp only [iff_true]
        exact alreadySent_markSent_self _ _ _ _ _
    · have hRstep : runReminderStep env u.userId true (runFasting env u log).1 =
          ((runFasting env u log).1, [],
            [⟨"daily_reminder", env.localDate, payloadReminder⟩], none) := by
        unfold runReminderStep
        rw [if_pos rfl, if_neg (by rw [hnotF]; simp), hall, hs]
      rw [hRstep]
      constructor
      · show countKind "daily_reminder" ((runFasting env u log).2.1 ++ []) = _
        rw [countKind_append, countKind_reminder_rf_zero,
          if_neg (by intro hc; cases hc)]
        rfl
      · rw [hnotF]
        simp
    · have hRstep : runReminderStep env u.userId true (runFasting env u log).1 =
          ((runFasting env u log).1, [],
            [⟨"daily_reminder", env.localDate, payloadReminder⟩], none) := by
        unfold runReminderStep
        rw [if_pos rfl, if_neg (by rw [hnotF]; simp), hall, hs]
      rw [hRstep]
      constructor
      · show countKind "daily_reminder" ((runFasting env u log).2.1 ++ []) = _
        rw [countKind_append, countKind_reminder_rf_zero,
          if_neg (by intro hc; cases hc)]
        rfl
      · rw [hnotF]
        simp

/-- Witness for C4 at a concrete input: reminder due at 10:00, all four
pillars complete, so the row is logged and nothing is sent. -/
theorem c4_reminder_completion_suppression_witness :
    (w2User.push_enabled = true ∧ w2User.push_daily_reminder = true ∧
        w2User.daily_reminder_time_min = some 0 ∧
        inLastWindow w2Env.localMin 0 5 = true ∧
        alreadySent [] w2User.userId "daily_reminder" w2Env.localDate = false) ∧
      (areAllPillarsCompletedToday w2Env.dailyDb w2User.userId w2Env.utcDate = Except.ok true →
        alreadySent (runUser w2Env w2User []).log w2User.userId "daily_reminder"
            w2Env.localDate = true ∧
          countKind "daily_reminder" (runUser w2Env w2User []).sent = 0 ∧
          countKind "daily_reminder" (runUser w2Env w2User []).att = 0) :=
  ⟨⟨rfl, rfl, rfl, by decide, by decide⟩,
    (c4_reminder_completion_suppression w2Env w2User [] 0 rfl rfl rfl (by decide)
      (by decide)).1⟩

/-! ### Helper lemmas for C6 (no stored subscription) -/

theorem tryFireAt_noSub (env : CronEnv) (uid : Nat) (k : String) (p : Payload)
    (kd : Int) (log : List LogEntry)
    (h : sendPushMain env.subs env.transport uid p = SendOutcome.noSubscription) :
    (tryFireAt env uid k p kd log).1 = log ∧ (tryFireAt env uid k p kd log).2.1 = [] := by
  unfold tryFireAt
  split
  · exact ⟨rfl, rfl⟩
  · rw [h]
    exact ⟨rfl, rfl⟩

theorem gfire_noSub (env : CronEnv) (uid : Nat) (k : String) (p : Payload)
    (kd : Int) (log : List LogEntry) (c : Bool)
    (h : sendPushMain env.subs env.transport uid p = SendOutcome.noSubscription) :
    (gfire env uid k p kd log c).1 = log ∧ (gfire env uid k p kd log c).2.1 = [] := by
  cases c
  · exact ⟨rfl, rfl⟩
  · exact tryFireAt_noSub env uid k p kd log h

theorem rf_noSub (env : CronEnv) (u : UserRow) (log : List LogEntry)
    (h : ∀ p, sendPushMain env.subs env.transport u.userId p = SendOutcome.noSubscription) :
    (runFasting env u log).1 = log ∧ (runFasting env u log).2.1 = [] := by
  unfold runFasting
  cases hu : u.fasting with
  | none => exact ⟨rfl, rfl⟩
  | some fs =>
    cases hw : u.push_fasting_windows with
    | false => exact ⟨rfl, rfl⟩
    | true =>
      obtain ⟨h11, h12⟩ := gfire_noSub env u.userId "window_start" payloadWindowStart
        env.localDate log
        (fs.notify_window_start && inLastWindow env.localMin (timeToMinutes fs.eating_start) 5)
        (h payloadWindowStart)
      obtain ⟨h21, h22⟩ := gfire_noSub env u.userId "window_end" payloadWindowEnd
        env.localDate
        (gfire env u.userId "window_start" payloadWindowStart env.localDate log
          (fs.notify_window_start && inLastWindow env.localMin (timeToMinutes fs.eating_start) 5)).1
        (fs.notify_window_end && inLastWindow env.localMin
          (mod1440 (timeToMinutes fs.eating_start + (fs.eating_hours.getD 0) * 60)) 5)
        (h payloadWindowEnd)
      constructor
      · show (gfire env u.userId "window_end" payloadWindowEnd env.localDate _ _).1 = log
        rw [h21, h11]
      · show (gfire env u.userId "window_start" payloadWindowStart env.localDate log _).2.1 ++
          (gfire env u.userId "window_end" payloadWindowEnd env.localDate _ _).2.1 = []
        rw [h12, h22]
        rfl

theorem rrs_noSub (env : CronEnv) (uid : Nat) (due : Bool) (log : List LogEntry)
    (h : sendPushMain env.subs env.transport uid payloadReminder = SendOutcome.noSubscription) :
    (runReminderStep env uid due log).2.1 = [] ∧
      ((runReminderStep env uid due log).1 = log ∨
        ((runReminderStep env uid due log).1 =
            markSent log uid "daily_reminder" env.localDate env.localMin ∧
          areAllPillarsCompletedToday env.dailyDb uid env.utcDate = Except.ok true)) := by
  cases due
  · exact ⟨rfl, Or.inl rfl⟩
  · unfold runReminderStep
    rw [if_pos rfl]
    by_cases ha : alreadySent log uid "daily_reminder" env.localDate = true
    · rw [if_pos ha]
      exact ⟨rfl, Or.inl rfl⟩
    · rw [if_neg ha]
      rcases hp : areAllPillarsCompletedToday env.dailyDb uid env.utcDate with msg | b
      · exact ⟨rfl, Or.inl rfl⟩
      · cases b
        · rw [h]
          exact ⟨rfl, Or.inl rfl⟩
        · exact ⟨rfl, Or.inr ⟨rfl, rfl⟩⟩

/-- C6 counterexample: the claim "no send-log row is written for that
trigger" fails: a user with no subscription whose daily reminder is due on a
day with all four pillars complete still gets a `daily_reminder` send-log row
(the completion-suppression path writes it without calling `sendPush`). -/
theorem c6_counterexample :
    fetchUserSubscription w2Env.subs w2User.userId = none ∧
      dueReminder w2Env w2User = true ∧
      alreadySent [] w2User.userId "daily_reminder" w2Env.localDate = false ∧
      (runUser w2Env w2User []).log = [⟨1, "daily_reminder", 0, 0⟩] ∧
      (runUser w2Env w2User []).sent = [] := by
  decide

/-- C6 (amended): for a user with no stored subscription row, every
`sendPush` call returns `no_subscription`, no push is delivered, and no
send-log row is written — except that a due daily reminder on a day whose
four pillars are all complete still writes its suppression row (without
calling `sendPush`), so fasting triggers and unmet-reminder triggers remain
eligible on a later invocation. -/
theorem c6_no_subscription_behaviour (env : CronEnv) (u : UserRow)
    (log : List LogEntry)
    (hno : fetchUserSubscription env.subs u.userId = none) :
    (∀ p, sendPushMain env.subs env.transport u.userId p = SendOutcome.noSubscription) ∧
      (runUser env u log).sent = [] ∧
      ((runUser env u log).log = log ∨
        ((runUser env u log).log =
            markSent log u.userId "daily_reminder" env.localDate env.localMin ∧
          areAllPillarsCompletedToday env.dailyDb u.userId env.utcDate = Except.ok true)) := by
  have hsp : ∀ p, sendPushMain env.subs env.transport u.userId p = SendOutcome.noSubscription := by
    intro p
    unfold sendPushMain
    rw [hno]
  refine ⟨hsp, ?_⟩
  cases hen : u.push_enabled with
  | false =>
    have : runUser env u log = ⟨log, [], [], none⟩ := by
      unfold runUser
      rw [hen]
      rfl
    rw [this]
    exact ⟨rfl, Or.inl rfl⟩
  | true =>
    rw [runUser_enabled_eq env u log hen]
    obtain ⟨hf1, hf2⟩ := rf_noSub env u log hsp
    obtain ⟨hr2, hr1⟩ := rrs_noSub env u.userId (dueReminder env u) (runFasting env u log).1
      (hsp payloadReminder)
    constructor
    · show (runFasting env u log).2.1 ++
        (runReminderStep env u.userId (dueReminder env u) (runFasting env u log).1).2.1 = []
      rw [hf2, hr2]
      rfl
    · show (runReminderStep env u.userId (dueReminder env u) (runFasting env u log).1).1 = log ∨ _
      rcases hr1 with h | ⟨h, hall⟩
      · exact Or.inl (by rw [h, hf1])
      · exact Or.inr ⟨by rw [h, hf1], hall⟩

/-- Witness for the amended C6: a user with no subscription and an incomplete
day — the due reminder attempts `sendPush`, gets `no_subscription`, and the
log is left unchanged. -/
theorem c6_no_subscription_behaviour_witness :
    fetchUserSubscription w3Env.subs w1User.userId = none ∧
      ((∀ p, sendPushMain w3Env.subs w3Env.transport w1User.userId p =
          SendOutcome.noSubscription) ∧
        (runUser w3Env w1User []).sent = [] ∧
        ((runUser w3Env w1User []).log = [] ∨
          ((runUser w3Env w1User []).log =
              markSent [] w1User.userId "daily_reminder" w3Env.localDate w3Env.localMin ∧
            areAllPillarsCompletedToday w3Env.dailyDb w1User.userId w3Env.utcDate =
              Except.ok true))) :=
  ⟨rfl, c6_no_subscription_behaviour w3Env w1User [] rfl⟩

/-- C7: on a transport error whose message carries HTTP 410/404
(expired / invalid endpoint) semantics, the kind-keyed scheduler iteration's
`sendPush` deletes every stored subscription row of the user before
reporting `send_failed`; on any other transport error nothing is deleted and
the failure stays a non-fatal `send_failed` result. -/
theorem c7_expired_endpoint_cleanup (subs : List SubRow)
    (transport : Payload → Option String) (userId : Nat) (payload : Payload)
    (sub : SubRow) (msg : String)
    (hsub : fetchUserSubscription subs userId = some sub)
    (herr : transport payload = some msg) :
    ((strIncludes msg "410" || strIncludes msg "404") = true →
      sendPushV3 subs transport userId payload =
        (SendOutcome.sendFailed msg, deleteUserSubscriptions subs userId) ∧
        ∀ r ∈ (sendPushV3 subs transport userId payload).2, r.userId ≠ userId) ∧
    ((strIncludes msg "410" || strIncludes msg "404") = false →
      sendPushV3 subs transport userId payload = (SendOutcome.sendFailed msg, subs)) := by
  have hbase : sendPushV3 subs transport userId payload =
      (if strIncludes msg "410" || strIncludes msg "404" then
        (SendOutcome.sendFailed msg, deleteUserSubscriptions subs userId)
      else (SendOutcome.sendFailed msg, subs)) := by
    unfold sendPushV3
    rw [hsub, herr]
  constructor
  · intro hcode
    have heq : sendPushV3 subs transport userId payload =
        (SendOutcome.sendFailed msg, deleteUserSubscriptions subs userId) := by
      rw [hbase, if_pos hcode]
    refine ⟨heq, ?_⟩
    rw [heq]
    intro r hr hru
    have := List.mem_filter.mp hr
    rw [hru] at this
    simp at this
  · intro hcode
    rw [hbase, if_neg (by rw [hcode]; simp)]

/-- Witness for C7: a subscribed user whose transport throws a message
containing "410" ends up with every subscription row deleted. -/
theorem c7_expired_endpoint_cleanup_witness :
    (fetchUserSubscription [⟨1, "ep", "pk", "ak"⟩] 1 = some ⟨1, "ep", "pk", "ak"⟩ ∧
        (fun (_ : Payload) => some "WebPushError: received unexpected response code 410")
            payloadWindowStart =
          some "WebPushError: received unexpected response code 410" ∧
        (strIncludes "WebPushError: received unexpected response code 410" "410" ||
            strIncludes "WebPushError: received unexpected response code 410" "404") = true) ∧
      (sendPushV3 [⟨1, "ep", "pk", "ak"⟩]
          (fun _ => some "WebPushError: received unexpected response code 410") 1
          payloadWindowStart =
        (SendOutcome.sendFailed "WebPushError: received unexpected response code 410",
          deleteUserSubscriptions [⟨1, "ep", "pk", "ak"⟩] 1) ∧
        ∀ r ∈ (sendPushV3 [⟨1, "ep", "pk", "ak"⟩]
            (fun _ => some "WebPushError: received unexpected response code 410") 1
            payloadWindowStart).2, r.userId ≠ 1) :=
  ⟨⟨rfl, rfl, by decide⟩,
    (c7_expired_endpoint_cleanup [⟨1, "ep", "pk", "ak"⟩]
        (fun _ => some "WebPushError: received unexpected response code 410") 1
        payloadWindowStart ⟨1, "ep", "pk", "ak"⟩
        "WebPushError: received unexpected response code 410" rfl rfl).1 (by decide)⟩

/-! ### C5: areAllPillarsCompletedToday characterization -/

theorem mem_foldl_erase (rows : List DPillarRow) (init : List String)
    (hnd : init.Nodup) (p : String) :
    p ∈ rows.foldl (fun acc r => if r.completed then acc.erase r.pillar else acc) init ↔
      p ∈ init ∧ ∀ r ∈ rows, ¬(r.completed = true ∧ r.pillar = p) := by
  induction rows generalizing init with
  | nil => simp
  | cons r rows ih =>
    simp only [List.foldl_cons]
    by_cases hc : r.completed = true
    · rw [if_pos hc, ih (init.erase r.pillar) (hnd.erase r.pillar),
        List.Nodup.mem_erase_iff hnd]
      simp only [List.forall_mem_cons, hc, true_and]
      constructor
      · rintro ⟨⟨hne, hmem⟩, hall⟩
        exact ⟨hmem, fun hp => hne hp.symm, hall⟩
      · rintro ⟨hmem, hnp, hall⟩
        exact ⟨⟨fun hp => hnp hp.symm, hmem⟩, hall⟩
    · rw [if_neg hc, ih init hnd]
      simp only [List.forall_mem_cons, hc]
      tauto

/-- C5: under the table invariant that at most one `daily_entries` row
matches `(user_id, entry_date)` (it is the upsert conflict key),
`areAllPillarsCompletedToday` returns `true` exactly when a day record exists
for the mapped UTC date and, for each of the four pillars, some
`daily_pillars` row of that entry has `completed = true`; a missing day
record or any missing pillar yields `false`. -/
theorem c5_all_pillars_characterization (db : DailyDb) (userId : Nat) (utcDate : Int)
    (huniq : (db.entries.filter fun x => x.userId == userId && x.entryDate == utcDate).length ≤ 1) :
    ∃ b, areAllPillarsCompletedToday db userId utcDate = Except.ok b ∧
      (b = true ↔ ∃ entry ∈ db.entries, entry.userId = userId ∧ entry.entryDate = utcDate ∧
        ∀ p ∈ pillarNames, ∃ r ∈ db.pillars, r.entryId = entry.id ∧ r.pillar = p ∧
          r.completed = true) := by
  unfold areAllPillarsCompletedToday
  rcases hl : db.entries.filter (fun x => x.userId == userId && x.entryDate == utcDate) with
    _ | ⟨e0, rest⟩
  · rw [hl]
    refine ⟨false, rfl, ?_⟩
    simp only [Bool.false_eq_true, false_iff]
    rintro ⟨entry, hmem, hu, hd, -⟩
    have hin : entry ∈ db.entries.filter (fun x => x.userId == userId && x.entryDate == utcDate) := by
      rw [List.mem_filter]
      exact ⟨hmem, by simp [hu, hd]⟩
    rw [hl] at hin
    simp at hin
  · cases rest with
    | cons e1 rest1 =>
      rw [hl] at huniq
      simp at huniq
    | nil =>
      rw [hl]
      refine ⟨_, rfl, ?_⟩
      have he0 : e0 ∈ db.entries ∧ e0.userId = userId ∧ e0.entryDate = utcDate := by
        have hin : e0 ∈ db.entries.filter (fun x => x.userId == userId && x.entryDate == utcDate) := by
          rw [hl]
          exact List.mem_singleton_self e0
        obtain ⟨hmem, hcond⟩ := List.mem_filter.mp hin
        simp only [Bool.and_eq_true, beq_iff_eq] at hcond
        exact ⟨hmem, hcond.1, hcond.2⟩
      have hneed : ∀ p,
          p ∈ (db.pillars.filter fun r => r.entryId == e0.id).foldl
            (fun acc r => if r.completed then acc.erase r.pillar else acc) pillarNames ↔
          p ∈ pillarNames ∧
            ∀ r ∈ db.pillars.filter (fun r => r.entryId == e0.id),
              ¬(r.completed = true ∧ r.pillar = p) := fun p =>
        mem_foldl_erase _ pillarNames (by decide) p
      simp only [beq_iff_eq, List.length_eq_zero]
      constructor
      · intro hnil
        refine ⟨e0, he0.1, he0.2.1, he0.2.2, ?_⟩
        intro p hp
        by_contra hnone
        push_neg at hnone
        have hpmem : p ∈ (db.pillars.filter fun r => r.entryId == e0.id).foldl
            (fun acc r => if r.completed then acc.erase r.pillar else acc) pillarNames := by
          rw [hneed p]
          refine ⟨hp, ?_⟩
          rintro r hrf ⟨hrc, hrp⟩
          obtain ⟨hrmem, hrid⟩ := List.mem_filter.mp hrf
          simp only [beq_iff_eq] at hrid
          exact absurd hrc (by
            have := hnone r hrmem hrid hrp
            intro hcc
            exact this hcc)
        rw [hnil] at hpmem
        simp at hpmem
      · rintro ⟨entry, hmem, hu, hd, hall⟩
        have hentry : entry = e0 := by
          have hin : entry ∈ db.entries.filter
              (fun x => x.userId == userId && x.entryDate == utcDate) := by
            rw [List.mem_filter]
            exact ⟨hmem, by simp [hu, hd]⟩
          rw [hl] at hin
          simpa using hin
        subst hentry
        rw [List.eq_nil_iff_forall_not_mem]
        intro p hpmem
        rw [hneed p] at hpmem
        obtain ⟨hp, hnone⟩ := hpmem
        obtain ⟨r, hrmem, hrid, hrp, hrc⟩ := hall p hp
        exact hnone r (List.mem_filter.mpr ⟨hrmem, by simp [hrid]⟩) ⟨hrc, hrp⟩

/-- Witness for C5: a day with all four pillar rows completed evaluates to
`ok true` and satisfies the characterization. -/
theorem c5_all_pillars_characterization_witness :
    ((w2Env.dailyDb.entries.filter fun x => x.userId == 1 && x.entryDate == 0).length ≤ 1) ∧
      ∃ b, areAllPillarsCompletedToday w2Env.dailyDb 1 0 = Except.ok b ∧
        (b = true ↔ ∃ entry ∈ w2Env.dailyDb.entries, entry.userId = 1 ∧ entry.entryDate = 0 ∧
          ∀ p ∈ pillarNames, ∃ r ∈ w2Env.dailyDb.pillars, r.entryId = entry.id ∧
            r.pillar = p ∧ r.completed = true) :=
  ⟨by decide, c5_all_pillars_characterization w2Env.dailyDb 1 0 (by decide)⟩

/-! ### C8 / C9: recomputePillar -/

theorem find?_of_filter_singleton {α : Type} (p : α → Bool) (l : List α) (a : α)
    (h : l.filter p = [a]) : l.find? p = some a := by
  induction l with
  | nil => simp at h
  | cons x xs ih =>
    by_cases hx : p x = true
    · rw [List.find?_cons_of_pos _ hx]
      rw [List.filter_cons, if_pos hx] at h
      injection h with h1 h2
      rw [h1]
    · rw [List.find?_cons_of_neg _ hx]
      rw [List.filter_cons, if_neg hx] at h
      exact ih h

/-- Common prefix of `recomputePillar "eat"` under the singleton-row
hypotheses: the get-or-create and seed steps leave the store unchanged and
select exactly `r0`. -/
theorem recomputePillar_eat_eq (userId : Nat) (entryDate : Int)
    (freshEntryId : Nat) (nowIso : String) (db : RDb) (e0 : EntryRow) (r0 : RPillarRow)
    (he : db.dailyEntries.filter
        (fun x => x.userId == userId && x.entryDate == entryDate) = [e0])
    (hr : db.dailyPillars.filter
        (fun r => r.entryId == e0.id && r.pillar == "eat") = [r0]) :
    recomputePillar "eat" userId entryDate freshEntryId nowIso db =
      (if r0.source == some "manual" then (db, false)
       else
        if r0.completed == eatShouldComplete db userId entryDate then (db, false)
        else
          ({ db with dailyPillars := db.dailyPillars.map fun r =>
            if r.entryId == e0.id && r.pillar == "eat" then
              { r with completed := eatShouldComplete db userId entryDate,
                       completedAt :=
                         if eatShouldComplete db userId entryDate then some nowIso else none,
                       source :=
                         if eatShouldComplete db userId entryDate then some "auto" else none }
            else r }, true)) := by
  have hfind : db.dailyEntries.find?
      (fun x => x.userId == userId && x.entryDate == entryDate) = some e0 :=
    find?_of_filter_singleton _ _ _ he
  have hany : (db.dailyPillars.any fun r => r.entryId == e0.id && r.pillar == "eat") = true := by
    rw [List.any_eq_true]
    have hmem : r0 ∈ db.dailyPillars.filter
        (fun r => r.entryId == e0.id && r.pillar == "eat") := by
      rw [hr]
      exact List.mem_singleton_self r0
    obtain ⟨hm, hp⟩ := List.mem_filter.mp hmem
    exact ⟨r0, hm, hp⟩
  unfold recomputePillar
  rw [hfind]
  simp only
  rw [hany]
  simp only [if_true]
  rw [hr]
  rfl

/-- C8: whenever the pillar's existing `daily_pillars` row has
`source = "manual"`, `recomputePillar` reports no change and leaves the
store — in particular the row's `completed`, `completed_at` and `source` —
untouched, no matter how many times it is called. -/
theorem c8_manual_override_wins (pillar : String) (userId : Nat) (entryDate : Int)
    (freshEntryId : Nat) (nowIso : String) (db : RDb) (e0 : EntryRow) (r0 : RPillarRow)
    (he : db.dailyEntries.filter
        (fun x => x.userId == userId && x.entryDate == entryDate) = [e0])
    (hr : db.dailyPillars.filter
        (fun r => r.entryId == e0.id && r.pillar == pillar) = [r0])
    (hman : r0.source = some "manual") :
    recomputePillar pillar userId entryDate freshEntryId nowIso db = (db, false) ∧
      ∀ n, recompIter pillar userId entryDate freshEntryId nowIso n db = db := by
  have hone : recomputePillar pillar userId entryDate freshEntryId nowIso db = (db, false) := by
    by_cases hpe : pillar = "eat"
    · subst hpe
      rw [recomputePillar_eat_eq userId entryDate freshEntryId nowIso db e0 r0 he hr]
      rw [if_pos (by rw [hman]; rfl)]
    · unfold recomputePillar
      rw [show (pillar == "eat") = false from beq_eq_false_iff_ne.mpr hpe]
      rfl
  refine ⟨hone, ?_⟩
  intro n
  induction n with
  | zero => rfl
  | succ n ih =>
    show recompIter pillar userId entryDate freshEntryId nowIso n
      (recomputePillar pillar userId entryDate freshEntryId nowIso db).1 = db
    rw [hone]
    exact ih

/-- Witness for C8: a manually completed `eat` row survives three recompute
calls unchanged. -/
theorem c8_manual_override_wins_witness :
    (w5Db.dailyEntries.filter (fun x => x.userId == 1 && x.entryDate == 10) = [⟨3, 1, 10⟩] ∧
        w5Db.dailyPillars.filter (fun r => r.entryId == 3 && r.pillar == "eat") =
          [⟨3, "eat", true, some "t0", some "manual"⟩] ∧
        (some "manual" : Option String) = some "manual") ∧
      (recomputePillar "eat" 1 10 99 "t1" w5Db = (w5Db, false) ∧
        ∀ n, recompIter "eat" 1 10 99 "t1" n w5Db = w5Db) :=
  ⟨⟨by decide, by decide, rfl⟩,
    c8_manual_override_wins "eat" 1 10 99 "t1" w5Db ⟨3, 1, 10⟩
      ⟨3, "eat", true, some "t0", some "manual"⟩ (by decide) (by decide) rfl⟩

/-- The pillar-specific boolean of step 4 agrees with "there exists a meal
for today with at least one meal item". -/
theorem eatShouldComplete_iff (db : RDb) (userId : Nat) (entryDate : Int) :
    eatShouldComplete db userId entryDate = true ↔
      ∃ m ∈ db.meals, m.userId = userId ∧ m.mealDate = entryDate ∧
        ∃ it ∈ db.mealItems, it.mealId = m.id := by
  unfold eatShouldComplete
  by_cases hm : ((db.meals.filter fun mrow => mrow.userId == userId &&
      mrow.mealDate == entryDate).map fun mrow => mrow.id).length > 0
  · rw [if_pos hm]
    simp only [decide_eq_true_eq]
    constructor
    · intro h
      obtain ⟨it, hit⟩ := List.exists_mem_of_length_pos h
      obtain ⟨hitMem, hitC⟩ := List.mem_filter.mp hit
      have hitIn : it.mealId ∈ (db.meals.filter fun mrow => mrow.userId == userId &&
          mrow.mealDate == entryDate).map fun mrow => mrow.id :=
        List.elem_iff.mp hitC
      obtain ⟨mrow, hmrowF, hmid⟩ := List.mem_map.mp hitIn
      obtain ⟨hmrowMem, hmrowC⟩ := List.mem_filter.mp hmrowF
      simp only [Bool.and_eq_true, beq_iff_eq] at hmrowC
      exact ⟨mrow, hmrowMem, hmrowC.1, hmrowC.2, it, hitMem, hmid.symm⟩
    · rintro ⟨m, hmMem, hu, hd, it, hitMem, hitId⟩
      apply List.length_pos_of_mem
      show it ∈ _
      rw [List.mem_filter]
      refine ⟨hitMem, List.elem_iff.mpr ?_⟩
      rw [List.mem_map]
      exact ⟨m, List.mem_filter.mpr ⟨hmMem, by simp [hu, hd]⟩, hitId.symm⟩
  · rw [if_neg hm]
    simp only [Bool.false_eq_true, false_iff]
    rintro ⟨m, hmMem, hu, hd, -⟩
    apply hm
    apply List.length_pos_of_mem
    show m.id ∈ _
    rw [List.mem_map]
    exact ⟨m, List.mem_filter.mpr ⟨hmMem, by simp [hu, hd]⟩, rfl⟩

/-- C9: for the `eat` pillar with a non-manual existing row,
`recomputePillar` computes `shouldComplete` = "some meal today has at least
one item"; if it equals the stored flag it reports no change and leaves the
store untouched, otherwise it flips the flag, sets `completed_at`/`source` to
`now`/`"auto"` when newly complete and to `null`/`null` when newly
incomplete, and returns `true`. -/
theorem c9_eat_recompute_rule (userId : Nat) (entryDate : Int) (freshEntryId : Nat)
    (nowIso : String) (db : RDb) (e0 : EntryRow) (r0 : RPillarRow)
    (he : db.dailyEntries.filter
        (fun x => x.userId == userId && x.entryDate == entryDate) = [e0])
    (hr : db.dailyPillars.filter
        (fun r => r.entryId == e0.id && r.pillar == "eat") = [r0])
    (hnm : r0.source ≠ some "manual") :
    (eatShouldComplete db userId entryDate = true ↔
      ∃ m ∈ db.meals, m.userId = userId ∧ m.mealDate = entryDate ∧
        ∃ it ∈ db.mealItems, it.mealId = m.id) ∧
    (r0.completed = eatShouldComplete db userId entryDate →
      recomputePillar "eat" userId entryDate freshEntryId nowIso db = (db, false)) ∧
    (r0.completed ≠ eatShouldComplete db userId entryDate →
      recomputePillar "eat" userId entryDate freshEntryId nowIso db =
        ({ db with dailyPillars := db.dailyPillars.map fun r =>
            if r.entryId == e0.id && r.pillar == "eat" then
              { r with completed := eatShouldComplete db userId entryDate,
                       completedAt :=
                         if eatShouldComplete db userId entryDate then some nowIso else none,
                       source :=
                         if eatShouldComplete db userId entryDate then some "auto" else none }
            else r }, true)) := by
  have hbase := recomputePillar_eat_eq userId entryDate freshEntryId nowIso db e0 r0 he hr
  rw [if_neg (by rw [beq_eq_false_iff_ne.mpr hnm]; simp)] at hbase
  refine ⟨eatShouldComplete_iff db userId entryDate, ?_, ?_⟩
  · intro hsame
    rw [hbase, if_pos (by rw [hsame]; exact beq_self_eq_true _)]
  · intro hdiff
    rw [hbase, if_neg (by rw [beq_eq_false_iff_ne.mpr hdiff]; simp)]

/-- Witness for C9 at a concrete store: an auto-completed row with no meals
today flips back to incomplete with `source` cleared to `null`. -/
theorem c9_eat_recompute_rule_witness :
    (w6Db.dailyEntries.filter (fun x => x.userId == 1 && x.entryDate == 10) = [⟨3, 1, 10⟩] ∧
        w6Db.dailyPillars.filter (fun r => r.entryId == 3 && r.pillar == "eat") =
          [⟨3, "eat", true, some "t0", some "auto"⟩] ∧
        (some "auto" : Option String) ≠ some "manual") ∧
      ((⟨3, "eat", true, some "t0", some "auto"⟩ : RPillarRow).completed ≠
          eatShouldComplete w6Db 1 10 →
        recomputePillar "eat" 1 10 99 "t1" w6Db =
          ({ w6Db with dailyPillars := w6Db.dailyPillars.map fun r =>
              if r.entryId == 3 && r.pillar == "eat" then
                { r with completed := eatShouldComplete w6Db 1 10,
                         completedAt :=
                           if eatShouldComplete w6Db 1 10 then some "t1" else none,
                         source :=
                           if eatShouldComplete w6Db 1 10 then some "auto" else none }
              else r }, true)) :=
  ⟨⟨by decide, by decide, by decide⟩,
    (c9_eat_recompute_rule 1 10 99 "t1" w6Db ⟨3, 1, 10⟩
      ⟨3, "eat", true, some "t0", some "auto"⟩ (by decide) (by decide) (by decide)).2.2⟩

/-! ### C3: midnight wrap in the exact-minute iteration -/

theorem fire3_log (env : CronEnv) (uid : Nat) (k1 k2 k3 : String)
    (p1 p2 p3 : Payload) (kd : Int) (c1 c2 c3 : Bool) (log : List LogEntry) :
    ∃ Δ, (fire3 env uid k1 k2 k3 p1 p2 p3 kd c1 c2 c3 log).1 = log ++ Δ ∧
      ∀ x ∈ Δ, x = LogEntry.mk uid k1 kd env.localMin ∨
        x = LogEntry.mk uid k2 kd env.localMin ∨
        x = LogEntry.mk uid k3 kd env.localMin := by
  obtain ⟨Δ1, h1, he1⟩ := gfire_log env uid k1 p1 kd log c1
  obtain ⟨Δ2, h2, he2⟩ := gfire_log env uid k2 p2 kd (gfire env uid k1 p1 kd log c1).1 c2
  obtain ⟨Δ3, h3, he3⟩ := gfire_log env uid k3 p3 kd
    (gfire env uid k2 p2 kd (gfire env uid k1 p1 kd log c1).1 c2).1 c3
  refine ⟨Δ1 ++ Δ2 ++ Δ3, ?_, ?_⟩
  · show (gfire env uid k3 p3 kd _ c3).1 = _
    rw [h3, h2, h1]
    simp [List.append_assoc]
  · intro x hx
    rcases List.mem_append.mp hx with hx | hx
    · rcases List.mem_append.mp hx with hx | hx
      · exact Or.inl (he1 x hx)
      · exact Or.inr (Or.inl (he2 x hx))
    · exact Or.inr (Or.inr (he3 x hx))

/-- Normal form of a `runUserV1` evaluation when the user is enabled, has
fasting pushes on and both window minutes finite; `kd` names the computed
`windowKeyDate`. -/
theorem runUserV1_eq (env : CronEnv) (u : UserRowV1) (log : List LogEntry)
    (s e kd : Int)
    (hen : u.push_enabled = true) (hfw : u.push_fasting_windows = true)
    (hs : u.eating_start_min = some s) (hee : u.eating_end_min = some e)
    (hkd : (if e < s && env.localMin < e then env.localDate - 1 else env.localDate) = kd) :
    runUserV1 env u log =
      ⟨(runReminderStep env u.userId
          (u.push_daily_reminder &&
            (match u.daily_reminder_time_min with
             | some r => env.localMin == r
             | none => false))
          (fire3 env u.userId "window_start" "window_ending_soon" "window_end"
            payloadWindowStart payloadEndingSoon payloadWindowEnd kd
            (env.localMin == s) (env.localMin == mod1440 (e - 30))
            (env.localMin == e) log).1).1,
        (fire3 env u.userId "window_start" "window_ending_soon" "window_end"
          payloadWindowStart payloadEndingSoon payloadWindowEnd kd
          (env.localMin == s) (env.localMin == mod1440 (e - 30))
          (env.localMin == e) log).2.1 ++
        (runReminderStep env u.userId
          (u.push_daily_reminder &&
            (match u.daily_reminder_time_min with
             | some r => env.localMin == r
             | none => false))
          (fire3 env u.userId "window_start" "window_ending_soon" "window_end"
            payloadWindowStart payloadEndingSoon payloadWindowEnd kd
            (env.localMin == s) (env.localMin == mod1440 (e - 30))
            (env.localMin == e) log).1).2.1,
        (fire3 env u.userId "window_start" "window_ending_soon" "window_end"
          payloadWindowStart payloadEndingSoon payloadWindowEnd kd
          (env.localMin == s) (env.localMin == mod1440 (e - 30))
          (env.localMin == e) log).2.2 ++
        (runReminderStep env u.userId
          (u.push_daily_reminder &&
            (match u.daily_reminder_time_min with
             | some r => env.localMin == r
             | none => false))
          (fire3 env u.userId "window_start" "window_ending_soon" "window_end"
            payloadWindowStart payloadEndingSoon payloadWindowEnd kd
            (env.localMin == s) (env.localMin == mod1440 (e - 30))
            (env.localMin == e) log).1).2.2.1,
        (runReminderStep env u.userId
          (u.push_daily_reminder &&
            (match u.daily_reminder_time_min with
             | some r => env.localMin == r
             | none => false))
          (fire3 env u.userId "window_start" "window_ending_soon" "window_end"
            payloadWindowStart payloadEndingSoon payloadWindowEnd kd
            (env.localMin == s) (env.localMin == mod1440 (e - 30))
            (env.localMin == e) log).1).2.2.2⟩ := by
  unfold runUserV1
  rw [hen, hfw, hs, hee]
  dsimp only
  rw [hkd]
  rfl

/-- C3: with a midnight-crossing eating window (`end_minute <
start_minute`), any fasting-window trigger the exact-minute scheduler fires
at a local minute before `end_minute` writes its send-log row under the
*previous* local day's date; and those rows do not block the same local
day's legitimate `window_start` trigger, which still fires exactly once when
a later invocation hits the start minute with a working subscription. -/
theorem c3_midnight_wrap_key_date (env1 env2 : CronEnv) (u : UserRowV1)
    (log : List LogEntry) (s e : Int) (sub : SubRow)
    (hen : u.push_enabled = true)
    (hfw : u.push_fasting_windows = true)
    (hs : u.eating_start_min = some s)
    (hee : u.eating_end_min = some e)
    (hwrap : e < s)
    (hm : env1.localMin < e)
    (hd2 : env2.localDate = env1.localDate)
    (hm2 : env2.localMin = s)
    (hnostart : alreadySent log u.userId "window_start" env1.localDate = false)
    (hsub2 : fetchUserSubscription env2.subs u.userId = some sub)
    (htr2 : env2.transport payloadWindowStart = none) :
    (∀ x ∈ (runUserV1 env1 u log).log, x ∈ log ∨ x.kind = "daily_reminder" ∨
        x.localDate = env1.localDate - 1) ∧
      countKind "window_start" (runUserV1 env2 u (runUserV1 env1 u log).log).sent = 1 := by
  have h1 := runUserV1_eq env1 u log s e (env1.localDate - 1) hen hfw hs hee
    (by rw [if_pos (by simp [hwrap, hm])])
  obtain ⟨ΔF, hΔF, heF⟩ := fire3_log env1 u.userId "window_start" "window_ending_soon"
    "window_end" payloadWindowStart payloadEndingSoon payloadWindowEnd
    (env1.localDate - 1) (env1.localMin == s) (env1.localMin == mod1440 (e - 30))
    (env1.localMin == e) log
  obtain ⟨ΔR, hΔR, heR⟩ := rrs_log env1 u.userId
    (u.push_daily_reminder &&
      (match u.daily_reminder_time_min with
       | some r => env1.localMin == r
       | none => false))
    (fire3 env1 u.userId "window_start" "window_ending_soon" "window_end"
      payloadWindowStart payloadEndingSoon payloadWindowEnd (env1.localDate - 1)
      (env1.localMin == s) (env1.localMin == mod1440 (e - 30))
      (env1.localMin == e) log).1
  have hlog1 : (runUserV1 env1 u log).log = (log ++ ΔF) ++ ΔR := by
    rw [h1]
    show (runReminderStep _ _ _ _).1 = _
    rw [hΔR, hΔF]
  constructor
  · intro x hx
    rw [hlog1] at hx
    rcases List.mem_append.mp hx with hx | hx
    · rcases List.mem_append.mp hx with hx | hx
      · exact Or.inl hx
      · rcases heF x hx with h | h | h <;> rw [h] <;>
          exact Or.inr (Or.inr rfl)
    · rw [heR x hx]
      exact Or.inr (Or.inl rfl)
  · -- the second invocation at the start minute still fires window_start once
    have hnostart1 : alreadySent (runUserV1 env1 u log).log u.userId "window_start"
        env1.localDate = false := by
      rw [hlog1, alreadySent_append, alreadySent_append]
      have hzF : alreadySent ΔF u.userId "window_start" env1.localDate = false := by
        simp only [alreadySent, List.any_eq_false]
        intro x hx
        rcases heF x hx with h | h | h
        · rw [h]
          simp only [Bool.and_eq_true, beq_iff_eq, not_and]
          intro _ _
          omega
        · rw [h]
          simp
        · rw [h]
          simp
      have hzR : alreadySent ΔR u.userId "window_start" env1.localDate = false := by
        simp only [alreadySent, List.any_eq_false]
        intro x hx
        rw [heR x hx]
        simp
      rw [hnostart, hzF, hzR]
      rfl
    have h2 := runUserV1_eq env2 u (runUserV1 env1 u log).log s e env2.localDate hen hfw hs hee
      (by
        rw [if_neg]
        simp only [Bool.and_eq_true, decide_eq_true_eq, not_and]
        intro _
        rw [hm2]
        omega)
    have hok : sendPushMain env2.subs env2.transport u.userId payloadWindowStart =
        SendOutcome.ok := by
      unfold sendPushMain
      rw [hsub2, htr2]
    have hc1 : (env2.localMin == s) = true := by
      rw [hm2]
      exact beq_self_eq_true s
    have hg1 : gfire env2 u.userId "window_start" payloadWindowStart env2.localDate
        (runUserV1 env1 u log).log (env2.localMin == s) =
        (markSent (runUserV1 env1 u log).log u.userId "window_start" env2.localDate
            env2.localMin,
          [⟨"window_start", env2.localDate, payloadWindowStart⟩],
          [⟨"window_start", env2.localDate, payloadWindowStart⟩]) := by
      unfold gfire
      rw [hc1, if_pos rfl]
      unfold tryFireAt
      rw [if_neg (by rw [hd2, hnostart1]; simp), hok]
    rw [h2]
    show countKind "window_start"
      ((fire3 env2 u.userId "window_start" "window_ending_soon" "window_end"
        payloadWindowStart payloadEndingSoon payloadWindowEnd env2.localDate
        (env2.localMin == s) (env2.localMin == mod1440 (e - 30))
        (env2.localMin == e) (runUserV1 env1 u log).log).2.1 ++
      (runReminderStep env2 u.userId
        (u.push_daily_reminder &&
          (match u.daily_reminder_time_min with
           | some r => env2.localMin == r
           | none => false))
        (fire3 env2 u.userId "window_start" "window_ending_soon" "window_end"
          payloadWindowStart payloadEndingSoon payloadWindowEnd env2.localDate
          (env2.localMin == s) (env2.localMin == mod1440 (e - 30))
          (env2.localMin == e) (runUserV1 env1 u log).log).1).2.1) = 1
    rw [countKind_append]
    have hfsplit : countKind "window_start"
        (fire3 env2 u.userId "window_start" "window_ending_soon" "window_end"
          payloadWindowStart payloadEndingSoon payloadWindowEnd env2.localDate
          (env2.localMin == s) (env2.localMin == mod1440 (e - 30))
          (env2.localMin == e) (runUserV1 env1 u log).log).2.1 = 1 := by
      show countKind "window_start" (_ ++ _ ++ _) = 1
      rw [countKind_append, countKind_append, hg1]
      have hz2 : countKind "window_start"
          (gfire env2 u.userId "window_ending_soon" payloadEndingSoon env2.localDate
            (gfire env2 u.userId "window_start" payloadWindowStart env2.localDate
              (runUserV1 env1 u log).log (env2.localMin == s)).1
            (env2.localMin == mod1440 (e - 30))).2.1 = 0 :=
        countKind_eq_zero_of_ne _ _ _ _ _
          (gfire_sent env2 u.userId "window_ending_soon" payloadEndingSoon env2.localDate _
            (env2.localMin == mod1440 (e - 30))).1 (by decide)
      have hz3 : countKind "window_start"
          (gfire env2 u.userId "window_end" payloadWindowEnd env2.localDate
            (gfire env2 u.userId "window_ending_soon" payloadEndingSoon env2.localDate
              (gfire env2 u.userId "window_start" payloadWindowStart env2.localDate
                (runUserV1 env1 u log).log (env2.localMin == s)).1
              (env2.localMin == mod1440 (e - 30))).1
            (env2.localMin == e)).2.1 = 0 :=
        countKind_eq_zero_of_ne _ _ _ _ _
          (gfire_sent env2 u.userId "window_end" payloadWindowEnd env2.localDate _
            (env2.localMin == e)).1 (by decide)
      rw [hg1] at hz2 hz3
      rw [hz2, hz3]
      simp [countKind]
    have hrz : countKind "window_start"
        (runReminderStep env2 u.userId
          (u.push_daily_reminder &&
            (match u.daily_reminder_time_min with
             | some r => env2.localMin == r
             | none => false))
          (fire3 env2 u.userId "window_start" "window_ending_soon" "window_end"
            payloadWindowStart payloadEndingSoon payloadWindowEnd env2.localDate
            (env2.localMin == s) (env2.localMin == mod1440 (e - 30))
            (env2.localMin == e) (runUserV1 env1 u log).log).1).2.1 = 0 :=
      countKind_eq_zero_of_ne _ _ _ _ _
        (rrs_sent env2 u.userId _ _).1 (by decide)
    rw [hfsplit, hrz]

/-- Witness for C3 at the P3 scenario values (eating 22:00–08:00): the
07:30 `window_ending_soon` push of day 100 is logged under day 99, and the
22:00 `window_start` trigger of day 100 still sends once. -/
theorem c3_midnight_wrap_key_date_witness :
    (w7User.push_enabled = true ∧ w7User.push_fasting_windows = true ∧
        w7User.eating_start_min = some 1320 ∧ w7User.eating_end_min = some 480 ∧
        (480 : Int) < 1320 ∧ w7Env1.localMin < 480 ∧
        w7Env2.localDate = w7Env1.localDate ∧ w7Env2.localMin = 1320 ∧
        alreadySent [] w7User.userId "window_start" w7Env1.localDate = false ∧
        fetchUserSubscription w7Env2.subs w7User.userId = some ⟨1, "ep", "pk", "ak"⟩ ∧
        w7Env2.transport payloadWindowStart = none) ∧
      ((∀ x ∈ (runUserV1 w7Env1 w7User []).log, x ∈ ([] : List LogEntry) ∨
          x.kind = "daily_reminder" ∨ x.localDate = w7Env1.localDate - 1) ∧
        countKind "window_start"
          (runUserV1 w7Env2 w7User (runUserV1 w7Env1 w7User []).log).sent = 1) :=
  ⟨⟨rfl, rfl, rfl, rfl, by decide, by decide, rfl, rfl, by decide, rfl, rfl⟩,
    c3_midnight_wrap_key_date w7Env1 w7Env2 w7User [] 1320 480 ⟨1, "ep", "pk", "ak"⟩
      rfl rfl rfl rfl (by decide) (by decide) rfl rfl (by decide) rfl rfl⟩

/-- Witness for the amended C10 equivalence at the concrete window size used
by the schedulers (`w = 5`), with a midnight-wrapping pair of minutes. -/
theorem c10_window_predicates_equiv_witness :
    (1 : Int) ≤ 5 ∧ (5 : Int) ≤ 1440 ∧
      (inLastWindow 2 1438 5 = inLastNMinutesWindow 1438 2 5 ∧
        (inLastWindow 2 1438 5 = true ↔ ((2 : Int) - 1438) % 1440 < 5)) :=
  ⟨by norm_num, by norm_num,
    c10_window_predicates_equiv 2 1438 5 (by norm_num) (by norm_num)⟩

end Disciplined
